import Mathlib

/-!
# go-clock: a mockable wall clock

A shallow embedding of `clock.go` (package `clock`) together with the part of
Go's standard `time` package that the file calls: `time.Time` values, `Add`,
`After`, `Before`, `Equal`, and `time.Duration` arithmetic on int64
nanoseconds.

Machine integers are unbounded `Nat`/`Int` with explicit wrapping: `wrap64`
is the two's-complement reduction to int64.  A `uint64` bit pattern is a
`Nat` and every bit operation of the `time` package is written with the
equal `/`, `%` expression (the Go expression stands in the comment next to
each one).
-/

namespace GoClock

/-! ## int64 and `time.Duration` -/

/-- Two's-complement reduction of an integer to the int64 range. -/
def wrap64 (x : Int) : Int := (x + 2 ^ 63) % 2 ^ 64 - 2 ^ 63

/-- The largest int64. -/
def maxInt64 : Int := 2 ^ 63 - 1

/-- The smallest int64. -/
def minInt64 : Int := -(2 ^ 63)

/-- Membership in the int64 range (the range of a Go `int` on 64-bit targets). -/
def InInt64 (x : Int) : Prop := minInt64 ≤ x ∧ x ≤ maxInt64

instance (x : Int) : Decidable (InInt64 x) := by
  unfold InInt64; exact inferInstance

/-- Go `time.Duration`: a count of nanoseconds held in an int64. -/
abbrev Duration := Int

/-- Go `time.Nanosecond`. -/
def Nanosecond : Duration := 1
/-- Go `time.Microsecond = 1000 * Nanosecond`. -/
def Microsecond : Duration := 1000 * Nanosecond
/-- Go `time.Millisecond = 1000 * Microsecond`. -/
def Millisecond : Duration := 1000 * Microsecond
/-- Go `time.Second = 1000 * Millisecond`. -/
def Second : Duration := 1000 * Millisecond
/-- Go `time.Minute = 60 * Second`. -/
def Minute : Duration := 60 * Second
/-- Go `time.Hour = 60 * Minute`. -/
def Hour : Duration := 60 * Minute

/-- The conversion `time.Duration(n)` of a Go `int` to int64. -/
def toDuration (n : Int) : Duration := wrap64 n

/-- The product `a * b` of two `time.Duration` values: int64 multiplication wraps. -/
def Duration.mul (a b : Duration) : Duration := wrap64 (a * b)

/-! ## `time.Time` -/

/-- Go `time.Time`: `wall` is the uint64 word (bit 63 `hasMonotonic`, a 33-bit
seconds field, a 30-bit nanoseconds field), `ext` the int64 word (seconds
since year 1 when `hasMonotonic` is clear, the monotonic reading otherwise)
and `loc` the `*Location` pointer (0 is nil, meaning UTC). -/
structure Time where
  wall : Nat
  ext : Int
  loc : Nat
deriving DecidableEq, Repr

/-- Go `secondsPerDay`. -/
def secondsPerDay : Int := 86400

/-- Go `unixToInternal`: seconds from year 1 to 1970. -/
def unixToInternal : Int := (1969 * 365 + 1969 / 4 - 1969 / 100 + 1969 / 400) * secondsPerDay

/-- Go `wallToInternal`: seconds from year 1 to 1885. -/
def wallToInternal : Int := (1884 * 365 + 1884 / 4 - 1884 / 100 + 1884 / 400) * secondsPerDay

/-- The test `t.wall&hasMonotonic != 0`, with `hasMonotonic = 1 << 63`. -/
def Time.hasMonotonic (t : Time) : Bool := decide (t.wall / 2 ^ 63 % 2 = 1)

/-- Go `(*Time).nsec`: `int32(t.wall & nsecMask)`, with `nsecMask = 1<<30 - 1`. -/
def Time.nsec (t : Time) : Int := ((t.wall % 2 ^ 30 : Nat) : Int)

/-- Go `(*Time).sec`: seconds since year 1. -/
def Time.sec (t : Time) : Int :=
  if t.hasMonotonic then
    -- wallToInternal + int64(t.wall<<1>>(nsecShift+1))
    wallToInternal + ((t.wall % 2 ^ 63 / 2 ^ 30 : Nat) : Int)
  else
    t.ext

/-- Go `(*Time).stripMono`. -/
def Time.stripMono (t : Time) : Time :=
  if t.hasMonotonic then
    -- t.ext = t.sec(); t.wall &= nsecMask
    { t with ext := t.sec, wall := t.wall % 2 ^ 30 }
  else
    t

/-- The tail of Go `(*Time).addSec`: add `d` to `t.ext`, saturating on int64
overflow. -/
def Time.addExt (t : Time) (d : Int) : Time :=
  let sum := wrap64 (t.ext + d)
  if decide (sum > t.ext) = decide (d > 0) then
    { t with ext := sum }
  else if d > 0 then
    { t with ext := 2 ^ 63 - 1 }
  else
    { t with ext := -(2 ^ 63 - 1) }

/-- Go `(*Time).addSec`. -/
def Time.addSec (t : Time) (d : Int) : Time :=
  if t.hasMonotonic then
    -- sec := int64(t.wall << 1 >> (nsecShift + 1)); dsec := sec + d
    let dsec := wrap64 (((t.wall % 2 ^ 63 / 2 ^ 30 : Nat) : Int) + d)
    if 0 ≤ dsec ∧ dsec ≤ 2 ^ 33 - 1 then
      -- t.wall = t.wall&nsecMask | uint64(dsec)<<nsecShift | hasMonotonic
      { t with wall := t.wall % 2 ^ 30 + dsec.toNat * 2 ^ 30 + 2 ^ 63 }
    else
      t.stripMono.addExt d
  else
    t.addExt d

/-- Go `Time.Add`. -/
def Time.Add (t : Time) (d : Duration) : Time :=
  -- dsec := int64(d / 1e9); nsec := t.nsec() + int32(d%1e9)
  let dsec := Int.tdiv d 1000000000
  let nsec := t.nsec + Int.tmod d 1000000000
  let dsec1 := if nsec ≥ 1000000000 then dsec + 1 else if nsec < 0 then dsec - 1 else dsec
  let nsec1 := if nsec ≥ 1000000000 then nsec - 1000000000
    else if nsec < 0 then nsec + 1000000000 else nsec
  -- t.wall = t.wall&^nsecMask | uint64(nsec)
  let t1 : Time := { t with wall := t.wall - t.wall % 2 ^ 30 + nsec1.toNat }
  let t2 := t1.addSec dsec1
  if t2.hasMonotonic then
    let te := wrap64 (t2.ext + d)
    if (d < 0 ∧ te > t2.ext) ∨ (d > 0 ∧ te < t2.ext) then
      t2.stripMono
    else
      { t2 with ext := te }
  else
    t2

/-- Go `Time.After`. -/
def Time.After (t u : Time) : Bool :=
  if t.hasMonotonic && u.hasMonotonic then
    decide (t.ext > u.ext)
  else
    decide (t.sec > u.sec ∨ (t.sec = u.sec ∧ t.nsec > u.nsec))

/-- Go `Time.Before`. -/
def Time.Before (t u : Time) : Bool :=
  if t.hasMonotonic && u.hasMonotonic then
    decide (t.ext < u.ext)
  else
    decide (t.sec < u.sec ∨ (t.sec = u.sec ∧ t.nsec < u.nsec))

/-- Go `Time.Equal`: the two values denote the same instant. -/
def Time.Equal (t u : Time) : Bool :=
  if t.hasMonotonic && u.hasMonotonic then
    decide (t.ext = u.ext)
  else
    decide (t.sec = u.sec ∧ t.nsec = u.nsec)

/-- Go `unixTime(sec, nsec)` followed by `setLoc(UTC)`: the wall-only value
of the instant `sec` seconds and `nsec` nanoseconds after 1970-01-01T00:00:00Z. -/
def unixTime (sec : Int) (nsec : Nat) : Time :=
  { wall := nsec, ext := sec + unixToInternal, loc := 0 }

/-! ## Package `clock` -/

/-- What a source function without side effects reads when it is called: the
reading the system clock would give at that moment, and the package
variable `fixedClock`.  (Sources that change the package state, or that call
through `AppClock` or another clock, are function values of `Mem`.) -/
structure Env where
  sys : Time
  fixedClock : Time

/-- Go `time.Now`: the reading of the system clock. -/
def timeNow : Env → Time := fun e => e.sys

/-- Go `type Clock struct { nowFunc func() time.Time }`, for a field that holds
a function without side effects (a field that may also hold the nil function
value is `RawClock`; function values with effects are those of `Mem`). -/
structure Clock where
  nowFunc : Env → Time

/-- The package-level variables: `AppClock` (the value behind the pointer)
and `fixedClock`. -/
structure State where
  AppClock : Clock
  fixedClock : Time

/-- `var FixedBaseline = time.Date(1970, 01, 01, 00, 00, 00, 00, time.UTC)`:
Unix second 0 in UTC. -/
def FixedBaseline : Time := unixTime 0 0

/-- The package state at start-up: `AppClock = &Clock{nowFunc: time.Now}` and
the zero `time.Time` in `fixedClock`. -/
def init : State := { AppClock := { nowFunc := timeNow }, fixedClock := { wall := 0, ext := 0, loc := 0 } }

/-- Go `func (c *Clock) Now() time.Time`. -/
def Clock.Now (c : Clock) (e : Env) : Time := c.nowFunc e

/-- Go `func Now() time.Time`: `AppClock.Now()`, called when the system
clock reads `sys`. -/
def Now (s : State) (sys : Time) : Time :=
  s.AppClock.Now { sys := sys, fixedClock := s.fixedClock }

/-- Go `func (c *Clock) SetNow(newNow func() time.Time)`. -/
def Clock.SetNow (_c : Clock) (newNow : Env → Time) : Clock := { nowFunc := newNow }

/-- Go `func (c *Clock) ResetNow()`. -/
def Clock.ResetNow (_c : Clock) : Clock := { nowFunc := timeNow }

/-- Go `func (c *Clock) Max(t1 time.Time, t2 time.Time) time.Time`. -/
def Clock.Max (_c : Clock) (t1 t2 : Time) : Time :=
  if t1.After t2 then t1 else t2

/-- Go `func SetFixedClock()`. -/
def SetFixedClock (s : State) : State :=
  { AppClock := s.AppClock.SetNow (fun e => e.fixedClock), fixedClock := FixedBaseline }

/-- Go `func ResetClock()`. -/
def ResetClock (s : State) : State :=
  { s with AppClock := s.AppClock.ResetNow }

/-- Go `func AdvanceFixed(hours int, minutes int, seconds int)`. -/
def AdvanceFixed (hours minutes seconds : Int) (s : State) : State :=
  let s1 := { s with fixedClock := s.fixedClock.Add (Duration.mul (toDuration hours) Hour) }
  let s2 := { s1 with fixedClock := s1.fixedClock.Add (Duration.mul (toDuration minutes) Minute) }
  { s2 with fixedClock := s2.fixedClock.Add (Duration.mul (toDuration seconds) Second) }

/-- Go `func Tick()`. -/
def Tick (s : State) : State := AdvanceFixed 0 0 1 s

/-- Go `func AdvanceHours(delta int)`. -/
def AdvanceHours (delta : Int) (s : State) : State :=
  { s with fixedClock := s.fixedClock.Add (Duration.mul (toDuration delta) Hour) }

/-- Go `func AdvanceMinutes(delta int)`. -/
def AdvanceMinutes (delta : Int) (s : State) : State :=
  { s with fixedClock := s.fixedClock.Add (Duration.mul (toDuration delta) Minute) }

/-- Go `func AdvanceSeconds(delta int)`. -/
def AdvanceSeconds (delta : Int) (s : State) : State :=
  { s with fixedClock := s.fixedClock.Add (Duration.mul (toDuration delta) Second) }

/-! ## Call sequences -/

/-- A call of one of the five operations that advance the stored fixed instant. -/
inductive Advance where
  | fixed (hours minutes seconds : Int)
  | tick
  | hours (delta : Int)
  | minutes (delta : Int)
  | seconds (delta : Int)

/-- The effect of one advance call on the package state. -/
def Advance.exec : Advance → State → State
  | .fixed h m s => AdvanceFixed h m s
  | .tick => Tick
  | .hours n => AdvanceHours n
  | .minutes n => AdvanceMinutes n
  | .seconds n => AdvanceSeconds n

/-- The effect of a sequence of advance calls, made in list order. -/
def runAdvances (as : List Advance) (s : State) : State :=
  as.foldl (fun st a => a.exec st) s

/-- The durations an advance call adds to the stored fixed instant, in the
order the code adds them. -/
def Advance.deltas : Advance → List Duration
  | .fixed h m s =>
      [Duration.mul (toDuration h) Hour, Duration.mul (toDuration m) Minute,
        Duration.mul (toDuration s) Second]
  | .tick =>
      [Duration.mul (toDuration 0) Hour, Duration.mul (toDuration 0) Minute,
        Duration.mul (toDuration 1) Second]
  | .hours n => [Duration.mul (toDuration n) Hour]
  | .minutes n => [Duration.mul (toDuration n) Minute]
  | .seconds n => [Duration.mul (toDuration n) Second]

/-- A call of any operation of the package that changes its state; `SetNow`
and `ResetNow` are the methods called on `AppClock`. -/
inductive Call where
  | SetFixedClock
  | ResetClock
  | advance (a : Advance)
  | SetNow (newNow : Env → Time)
  | ResetNow

/-- The effect of one call on the package state. -/
def Call.exec : Call → State → State
  | .SetFixedClock, s => GoClock.SetFixedClock s
  | .ResetClock, s => GoClock.ResetClock s
  | .advance a, s => a.exec s
  | .SetNow f, s => { s with AppClock := s.AppClock.SetNow f }
  | .ResetNow, s => { s with AppClock := s.AppClock.ResetNow }

/-- The effect of a sequence of calls, made in list order. -/
def run (cs : List Call) (s : State) : State :=
  cs.foldl (fun st c => c.exec st) s

/-! ## Specification-side notions -/

/-- A wall-only value (no monotonic reading, empty seconds field in `wall`)
with normalised nanoseconds and an int64 second count. -/
def Time.Plain (t : Time) : Prop := t.wall < 1000000000 ∧ InInt64 t.ext

/-- The instant exactly `n` seconds after the wall-only value `t`, in
unbounded integer arithmetic. -/
def Time.plusSeconds (t : Time) (n : Int) : Time := { t with ext := t.ext + n }

/-- The value of `t` after adding each duration of `ds` in turn with `Time.Add`. -/
def Time.addAll (t : Time) (ds : List Duration) : Time := ds.foldl Time.Add t

/-- A source function that does not read the stored fixed instant: its
result depends on the system clock reading alone. -/
def IgnoresFixed (f : Env → Time) : Prop :=
  ∀ (sys a b : Time), f { sys := sys, fixedClock := a } = f { sys := sys, fixedClock := b }

/-- A call that installs, if it is a `SetNow`, a source that does not read the
stored fixed instant. -/
def Call.Clean : Call → Prop
  | .SetNow f => IgnoresFixed f
  | _ => True

/-- Two package states that agree on the installed source, and on the stored
instant unless the source ignores it, give the same `Now()`. -/
def SameReads (s1 s2 : State) : Prop :=
  s1.AppClock = s2.AppClock ∧
    (s1.fixedClock = s2.fixedClock ∨ IgnoresFixed s2.AppClock.nowFunc)

/-! ## Function values that may be nil -/

/-- Go `type Clock struct { nowFunc func() time.Time }` with every value the
field can hold: `none` is the nil function value (the field of the zero value
`Clock{}`, or the argument of `SetNow(nil)`). -/
structure RawClock where
  nowFunc : Option (Env → Time)

/-- Go `func (c *Clock) Now() time.Time` on a `RawClock`: calling the nil
function value panics, which is the result `none`. -/
def RawClock.Now (c : RawClock) (e : Env) : Option Time :=
  match c.nowFunc with
  | none => none
  | some f => some (f e)

/-- Go `func (c *Clock) SetNow(newNow func() time.Time)` on a `RawClock`. -/
def RawClock.SetNow (_c : RawClock) (newNow : Option (Env → Time)) : RawClock :=
  { nowFunc := newNow }

/-- Go `func (c *Clock) ResetNow()` on a `RawClock`. -/
def RawClock.ResetNow (_c : RawClock) : RawClock := { nowFunc := some timeNow }

/-- A `Clock` seen as a `RawClock`: its field holds a function. -/
def Clock.raw (c : Clock) : RawClock := { nowFunc := some c.nowFunc }

/-- The package-level variables when `AppClock` is a `RawClock`. -/
structure RawState where
  AppClock : RawClock
  fixedClock : Time

/-- The stored fixed instant after an advance call; the advance operations
neither read nor write `AppClock`. -/
def Advance.onTime (a : Advance) (t : Time) : Time :=
  (a.exec { AppClock := { nowFunc := timeNow }, fixedClock := t }).fixedClock

/-- A call of any operation of the package, where `SetNow` can be given the
nil function value. -/
inductive RawCall where
  | SetFixedClock
  | ResetClock
  | advance (a : Advance)
  | SetNow (newNow : Option (Env → Time))
  | ResetNow

/-- The effect of one call on the package state with a `RawClock`. -/
def RawCall.exec : RawCall → RawState → RawState
  | .SetFixedClock, s =>
      { AppClock := s.AppClock.SetNow (some (fun e => e.fixedClock)), fixedClock := FixedBaseline }
  | .ResetClock, s => { s with AppClock := s.AppClock.ResetNow }
  | .advance a, s => { s with fixedClock := a.onTime s.fixedClock }
  | .SetNow f, s => { s with AppClock := s.AppClock.SetNow f }
  | .ResetNow, s => { s with AppClock := s.AppClock.ResetNow }

/-- The effect of a sequence of calls on the package state with a `RawClock`. -/
def runRaw (cs : List RawCall) (s : RawState) : RawState :=
  cs.foldl (fun st c => c.exec st) s

/-- Go `func Now() time.Time` on the package state with a `RawClock`. -/
def RawState.Now (s : RawState) (sys : Time) : Option Time :=
  s.AppClock.Now { sys := sys, fixedClock := s.fixedClock }

/-- A call that passes, if it is a `SetNow`, a function and not nil. -/
def RawCall.NonNil : RawCall → Prop
  | .SetNow f => f.isSome = true
  | _ => True

/-- The call of the total model as a call of the model with nil. -/
def Call.raw : Call → RawCall
  | .SetFixedClock => .SetFixedClock
  | .ResetClock => .ResetClock
  | .advance a => .advance a
  | .SetNow f => .SetNow (some f)
  | .ResetNow => .ResetNow

/-- The package state of the total model as a state of the model with nil. -/
def State.raw (s : State) : RawState := { AppClock := s.AppClock.raw, fixedClock := s.fixedClock }

/-! ## Exact arithmetic of an advance sequence -/

/-- The number of seconds an advance call asks for, in unbounded integer
arithmetic. -/
def Advance.asked : Advance → Int
  | .fixed h m s => 3600 * h + 60 * m + s
  | .tick => 1
  | .hours n => 3600 * n
  | .minutes n => 60 * n
  | .seconds n => n

/-- The advance call, made when the stored second count is `e`, stays inside
int64: every product `time.Duration(n) * unit` fits, and so does the second
count after each addition. -/
def Advance.Exact (e : Int) : Advance → Prop
  | .fixed h m s =>
      (-2562047 ≤ h ∧ h ≤ 2562047) ∧ (-153722867 ≤ m ∧ m ≤ 153722867) ∧
      (-9223372036 ≤ s ∧ s ≤ 9223372036) ∧ InInt64 (e + 3600 * h) ∧
      InInt64 (e + 3600 * h + 60 * m) ∧ InInt64 (e + 3600 * h + 60 * m + s)
  | .tick => InInt64 (e + 1)
  | .hours n => (-2562047 ≤ n ∧ n ≤ 2562047) ∧ InInt64 (e + 3600 * n)
  | .minutes n => (-153722867 ≤ n ∧ n ≤ 153722867) ∧ InInt64 (e + 60 * n)
  | .seconds n => (-9223372036 ≤ n ∧ n ≤ 9223372036) ∧ InInt64 (e + n)

/-- Every call of the sequence stays inside int64, the first one made when the
stored second count is `e`. -/
def ExactFrom : Int → List Advance → Prop
  | _, [] => True
  | e, a :: as => a.Exact e ∧ ExactFrom (e + a.asked) as

/-! ## Sources with effects, and a second clock -/

/-- A Go function value of type `func() time.Time`, by identity: the nil
value, `time.Now`, the closure installed by `SetFixedClock`, the package-level
function `clock.Now`, the method value `c.Now` of a client clock `c`, or the
`n`-th function written by the client. -/
inductive Func where
  | nil
  | timeNow
  | fixed
  | pkgNow
  | cNow
  | client (n : Nat)
deriving DecidableEq, Repr

/-- The variables of the program: the field of `AppClock`, the package
variable `fixedClock`, and the field of one more `Clock` `c`, held by a client
and distinct from `AppClock`. -/
structure Mem where
  AppClock : Func
  fixedClock : Time
  c : Func
deriving DecidableEq, Repr

/-- The body of a client function: from a way to call function values, the
variables and the system clock reading, it returns an instant and the
variables as it leaves them, or `none` when it panics or does not return. -/
abbrev Body := (Func → Mem → Option (Time × Mem)) → Mem → Time → Option (Time × Mem)

/-- The functions written by the client, by number. -/
abbrev Program := Nat → Body

/-- The call `f()` of a function value when the system clock reads `sys`, with
`fuel` bounding the depth of nested calls: nil panics, `time.Now` returns the
reading, the fixed-time closure returns `fixedClock`, `clock.Now` calls the
field of `AppClock` (clock.go lines 29-37), `c.Now` calls the field of `c`, a
client function runs its body. -/
def callFunc (P : Program) (sys : Time) : Nat → Func → Mem → Option (Time × Mem)
  | 0, _, _ => none
  | _ + 1, .nil, _ => none
  | _ + 1, .timeNow, m => some (sys, m)
  | _ + 1, .fixed, m => some (m.fixedClock, m)
  | fuel + 1, .pkgNow, m => callFunc P sys fuel m.AppClock m
  | fuel + 1, .cNow, m => callFunc P sys fuel m.c m
  | fuel + 1, .client n, m => P n (callFunc P sys fuel) m sys

/-- The variables at start-up, with the zero value `Clock{}` for `c`. -/
def Mem.init : Mem :=
  { AppClock := Func.timeNow, fixedClock := { wall := 0, ext := 0, loc := 0 }, c := Func.nil }

/-- Go `func Now() time.Time` on `Mem`: `AppClock.Now()`, which is
`AppClock.nowFunc()`. -/
def Mem.Now (P : Program) (sys : Time) (fuel : Nat) (m : Mem) : Option (Time × Mem) :=
  callFunc P sys fuel m.AppClock m

/-- The call `c.Now()` on `Mem`, which is `c.nowFunc()`. -/
def Mem.cNow (P : Program) (sys : Time) (fuel : Nat) (m : Mem) : Option (Time × Mem) :=
  callFunc P sys fuel m.c m

/-- Go `func (c *Clock) Max(t1 time.Time, t2 time.Time) time.Time` on `Mem`:
the body reads and writes no variable. -/
def Mem.Max (m : Mem) (t1 t2 : Time) : Time × Mem :=
  (if t1.After t2 then t1 else t2, m)

/-- A call that changes the variables without calling a function value: an
operation of the package, `AppClock.SetNow(f)`, `AppClock.ResetNow()`,
`c.SetNow(f)` or `c.ResetNow()`. -/
inductive MemCall where
  | SetFixedClock
  | ResetClock
  | advance (a : Advance)
  | SetNow (newNow : Func)
  | ResetNow
  | cSetNow (newNow : Func)
  | cResetNow

/-- The effect of one such call on the variables. -/
def MemCall.exec : MemCall → Mem → Mem
  | .SetFixedClock, m => { m with fixedClock := FixedBaseline, AppClock := Func.fixed }
  | .ResetClock, m => { m with AppClock := Func.timeNow }
  | .advance a, m => { m with fixedClock := a.onTime m.fixedClock }
  | .SetNow f, m => { m with AppClock := f }
  | .ResetNow, m => { m with AppClock := Func.timeNow }
  | .cSetNow f, m => { m with c := f }
  | .cResetNow, m => { m with c := Func.timeNow }

/-- The calls that act on the package: `SetFixedClock`, `ResetClock`, the
advance operations, `AppClock.SetNow` and `AppClock.ResetNow`. -/
def MemCall.OnPackage : MemCall → Prop
  | .cSetNow _ => False
  | .cResetNow => False
  | _ => True

/-- The instant a call returns, leaving out the variables (`none` for a panic). -/
def returned (r : Option (Time × Mem)) : Option Time := r.map Prod.fst

/-- A client function body without side effects: when it returns, the
variables are as it found them. -/
def Body.Pure (b : Body) : Prop :=
  ∀ (call : Func → Mem → Option (Time × Mem)) (m : Mem) (sys t : Time) (m1 : Mem),
    b call m sys = some (t, m1) → m1 = m

/-- A function value whose result does not depend on the field of the client
clock `c`. -/
def IgnoresC (P : Program) (f : Func) : Prop :=
  ∀ (sys : Time) (fuel : Nat) (m : Mem) (g : Func),
    returned (callFunc P sys fuel f { m with c := g }) = returned (callFunc P sys fuel f m)

/-- A function value whose result depends neither on the field of `AppClock`
nor on the stored fixed instant. -/
def IgnoresPackage (P : Program) (f : Func) : Prop :=
  ∀ (sys : Time) (fuel : Nat) (m : Mem) (a : Func) (t : Time),
    returned (callFunc P sys fuel f { m with AppClock := a, fixedClock := t }) =
      returned (callFunc P sys fuel f m)

/-- A client program whose every function is
`func() time.Time { clock.ResetClock(); return time.Now() }`. -/
def resettingProgram : Program :=
  fun _ _ m sys => some (sys, MemCall.exec MemCall.ResetClock m)

end GoClock

namespace GoClock

/-! ## Facts about int64 and `time.Time` -/

theorem wrap64_of_inInt64 {x : Int} (h : InInt64 x) : wrap64 x = x := by
  unfold InInt64 minInt64 maxInt64 at h
  unfold wrap64
  omega

theorem wrap64_inInt64 (x : Int) : InInt64 (wrap64 x) := by
  unfold InInt64 minInt64 maxInt64 wrap64
  omega

theorem tmod_billion_bounds (d : Int) :
    -1000000000 < Int.tmod d 1000000000 ∧ Int.tmod d 1000000000 < 1000000000 := by
  constructor
  · rcases Int.le_total 0 d with h | h
    · have := Int.tmod_nonneg 1000000000 h
      omega
    · have h1 : Int.tmod d 1000000000 = -(Int.tmod (-d) 1000000000) := by
        rw [Int.tmod_def, Int.tmod_def, Int.neg_tdiv]; ring
      have h2 := Int.tmod_lt_of_pos (-d) (show (0:Int) < 1000000000 by decide)
      omega
  · exact Int.tmod_lt_of_pos d (by decide)

theorem hasMonotonic_of_lt {t : Time} (h : t.wall < 2 ^ 63) : t.hasMonotonic = false := by
  unfold Time.hasMonotonic
  simp only [decide_eq_false_iff_not]
  omega

theorem addExt_wall (t : Time) (d : Int) : (t.addExt d).wall = t.wall := by
  unfold Time.addExt
  simp only
  split_ifs <;> rfl

theorem addExt_loc (t : Time) (d : Int) : (t.addExt d).loc = t.loc := by
  unfold Time.addExt
  simp only
  split_ifs <;> rfl

theorem addExt_inInt64 (t : Time) (d : Int) : InInt64 (t.addExt d).ext := by
  unfold Time.addExt
  simp only
  split_ifs
  · exact wrap64_inInt64 _
  · unfold InInt64 minInt64 maxInt64; simp only; omega
  · unfold InInt64 minInt64 maxInt64; simp only; omega

theorem addExt_exact (t : Time) (d : Int) (h : InInt64 (t.ext + d)) :
    t.addExt d = { t with ext := t.ext + d } := by
  unfold Time.addExt
  simp only [wrap64_of_inInt64 h]
  have : decide (t.ext + d > t.ext) = decide (d > 0) := by
    apply decide_eq_decide.mpr; omega
  simp [this]


theorem nsec_of_lt {t : Time} (h : t.wall < 1000000000) : t.nsec = (t.wall : Int) := by
  unfold Time.nsec
  rw [Nat.mod_eq_of_lt (by omega)]

theorem addSec_of_lt {t : Time} (h : t.wall < 2 ^ 63) (d : Int) : t.addSec d = t.addExt d := by
  unfold Time.addSec
  simp [hasMonotonic_of_lt h]

theorem Add_seconds (t : Time) (k : Int) (hw : t.wall < 1000000000) :
    t.Add (k * 1000000000) = t.addExt k := by
  have hm : t.wall % 2 ^ 30 = t.wall := Nat.mod_eq_of_lt (by omega)
  have h1 : ¬ ((t.wall : Int) ≥ 1000000000) := by omega
  have h2 : ¬ ((t.wall : Int) < 0) := by omega
  have ht : ({ t with wall := t.wall - t.wall % 2 ^ 30 + (t.wall : Int).toNat } : Time) = t := by
    cases t; simp at hm ⊢; omega
  unfold Time.Add
  simp only [Int.mul_tmod_left, Int.mul_tdiv_cancel _ (show (1000000000 : Int) ≠ 0 by decide),
    nsec_of_lt hw, add_zero, if_neg h1, if_neg h2, ht]
  rw [addSec_of_lt (by omega)]
  have : (t.addExt k).hasMonotonic = false :=
    hasMonotonic_of_lt (by rw [addExt_wall]; omega)
  simp [this]

theorem Add_plain (t : Time) (d : Int) (h : t.Plain) : (t.Add d).Plain ∧ (t.Add d).loc = t.loc := by
  obtain ⟨hw, -⟩ := h
  have hm : t.wall % 2 ^ 30 = t.wall := Nat.mod_eq_of_lt (by omega)
  obtain ⟨hr1, hr2⟩ := tmod_billion_bounds d
  unfold Time.Add
  simp only [nsec_of_lt hw, hm, Nat.sub_self, Nat.zero_add]
  generalize Int.tmod d 1000000000 = r at hr1 hr2
  generalize Int.tdiv d 1000000000 = q
  generalize hn : (if (t.wall : Int) + r ≥ 1000000000 then (t.wall : Int) + r - 1000000000
    else if (t.wall : Int) + r < 0 then (t.wall : Int) + r + 1000000000 else (t.wall : Int) + r) = n
  have hn1 : 0 ≤ n ∧ n < 1000000000 := by
    subst hn
    split_ifs <;> omega
  generalize (if (t.wall : Int) + r ≥ 1000000000 then q + 1
    else if (t.wall : Int) + r < 0 then q - 1 else q) = q1
  have hlt : n.toNat < 1000000000 := by omega
  rw [addSec_of_lt (by simp only; omega)]
  have : (({ t with wall := n.toNat } : Time).addExt q1).hasMonotonic = false :=
    hasMonotonic_of_lt (by rw [addExt_wall]; simp only; omega)
  simp only [this, Bool.false_eq_true, if_false]
  refine ⟨⟨?_, addExt_inInt64 _ _⟩, ?_⟩
  · rw [addExt_wall]; exact hlt
  · rw [addExt_loc]

theorem Add_unit_exact (t : Time) (n unit k : Int) (hw : t.wall < 1000000000)
    (hu : unit = k * 1000000000) (hn : InInt64 n) (hp : InInt64 (n * unit))
    (hsum : InInt64 (t.ext + n * k)) :
    t.Add (Duration.mul (toDuration n) unit) = t.plusSeconds (n * k) := by
  have hd : Duration.mul (toDuration n) unit = (n * k) * 1000000000 := by
    unfold Duration.mul toDuration
    rw [wrap64_of_inInt64 hn, wrap64_of_inInt64 hp, hu]; ring
  rw [hd, Add_seconds t _ hw, addExt_exact t _ hsum]
  rfl

theorem exec_plain (c : Call) (s : State) (h : s.fixedClock.Plain ∧ s.fixedClock.loc = 0) :
    (c.exec s).fixedClock.Plain ∧ (c.exec s).fixedClock.loc = 0 := by
  have step : ∀ (t : Time) (d : Int), (t.Plain ∧ t.loc = 0) → ((t.Add d).Plain ∧ (t.Add d).loc = 0) := by
    intro t d ht
    have := Add_plain t d ht.1
    exact ⟨this.1, this.2.trans ht.2⟩
  cases c with
  | SetFixedClock =>
    show FixedBaseline.Plain ∧ FixedBaseline.loc = 0
    exact ⟨⟨by decide, by decide⟩, rfl⟩
  | ResetClock => exact h
  | SetNow f => exact h
  | ResetNow => exact h
  | advance a =>
    cases a with
    | fixed hh mm ss => exact step _ _ (step _ _ (step _ _ h))
    | tick => exact step _ _ (step _ _ (step _ _ h))
    | hours n => exact step _ _ h
    | minutes n => exact step _ _ h
    | seconds n => exact step _ _ h

theorem run_plain (cs : List Call) (s : State) (h : s.fixedClock.Plain ∧ s.fixedClock.loc = 0) :
    (run cs s).fixedClock.Plain ∧ (run cs s).fixedClock.loc = 0 := by
  induction cs generalizing s with
  | nil => exact h
  | cons c cs ih => exact ih (c.exec s) (exec_plain c s h)

theorem init_plain : init.fixedClock.Plain ∧ init.fixedClock.loc = 0 :=
  ⟨⟨by decide, by decide⟩, rfl⟩

theorem AdvanceFixed_exact (st : State) (hours minutes seconds : Int)
    (hw : st.fixedClock.wall < 1000000000)
    (hh : -2562047 ≤ hours ∧ hours ≤ 2562047)
    (hm : -153722867 ≤ minutes ∧ minutes ≤ 153722867)
    (hs : -9223372036 ≤ seconds ∧ seconds ≤ 9223372036)
    (h1 : InInt64 (st.fixedClock.ext + 3600 * hours))
    (h2 : InInt64 (st.fixedClock.ext + 3600 * hours + 60 * minutes))
    (h3 : InInt64 (st.fixedClock.ext + 3600 * hours + 60 * minutes + seconds)) :
    (AdvanceFixed hours minutes seconds st).fixedClock =
      ((st.fixedClock.plusSeconds (3600 * hours)).plusSeconds (60 * minutes)).plusSeconds
        seconds := by
  unfold AdvanceFixed
  simp only
  rw [Add_unit_exact st.fixedClock hours Hour 3600 hw (by decide)
    (by unfold InInt64 minInt64 maxInt64; omega)
    (by unfold InInt64 minInt64 maxInt64 Hour Minute Second Millisecond Microsecond Nanosecond; omega)
    (by rw [Int.mul_comm]; exact h1)]
  rw [Add_unit_exact _ minutes Minute 60 (by exact hw) (by decide)
    (by unfold InInt64 minInt64 maxInt64; omega)
    (by unfold InInt64 minInt64 maxInt64 Minute Second Millisecond Microsecond Nanosecond; omega)
    (by rw [Int.mul_comm minutes, Int.mul_comm hours]; exact h2)]
  rw [Add_unit_exact _ seconds Second 1 (by exact hw) (by decide)
    (by unfold InInt64 minInt64 maxInt64; omega)
    (by unfold InInt64 minInt64 maxInt64 Second Millisecond Microsecond Nanosecond; omega)
    (by rw [Int.mul_one, Int.mul_comm minutes, Int.mul_comm hours]; exact h3)]
  simp [Time.plusSeconds, Int.mul_comm]

theorem addExt_pos (t : Time) (d : Int) (he : InInt64 t.ext) (hd : 0 < d ∧ d ≤ maxInt64) :
    t.addExt d = { t with ext := if t.ext + d ≤ maxInt64 then t.ext + d else maxInt64 } := by
  unfold InInt64 minInt64 maxInt64 at he
  unfold maxInt64 at hd
  by_cases h : t.ext + d ≤ maxInt64
  · rw [if_pos h]
    unfold maxInt64 at h
    exact addExt_exact t d (by unfold InInt64 minInt64 maxInt64; omega)
  · rw [if_neg h]
    unfold maxInt64 at h
    unfold Time.addExt
    have hw : wrap64 (t.ext + d) = t.ext + d - 2 ^ 64 := by unfold wrap64; omega
    have hne : ¬ (decide (wrap64 (t.ext + d) > t.ext) = decide (d > 0)) := by
      rw [hw, decide_eq_decide]; omega
    rw [if_neg hne, if_pos hd.1]
    rfl

theorem runAdvances_append (as bs : List Advance) (s : State) :
    runAdvances (as ++ bs) s = runAdvances bs (runAdvances as s) := by
  unfold runAdvances
  rw [List.foldl_append]

theorem runAdvances_AppClock (as : List Advance) (s : State) :
    (runAdvances as s).AppClock = s.AppClock := by
  induction as generalizing s with
  | nil => rfl
  | cons a as ih =>
    show (runAdvances as (a.exec s)).AppClock = s.AppClock
    rw [ih]
    cases a <;> rfl

theorem runAdvances_plain (as : List Advance) (s : State)
    (h : s.fixedClock.Plain ∧ s.fixedClock.loc = 0) :
    (runAdvances as s).fixedClock.Plain ∧ (runAdvances as s).fixedClock.loc = 0 := by
  induction as generalizing s with
  | nil => exact h
  | cons a as ih => exact ih (a.exec s) (exec_plain (Call.advance a) s h)

theorem AdvanceHours_max (t : Time) (c : Clock) (hw : t.wall < 1000000000)
    (he : InInt64 t.ext) :
    AdvanceHours 2562047 { AppClock := c, fixedClock := t } =
      { AppClock := c,
        fixedClock := { t with ext := if t.ext + 9223369200 ≤ maxInt64 then t.ext + 9223369200
          else maxInt64 } } := by
  have hd : Duration.mul (toDuration 2562047) Hour = 9223369200 * 1000000000 := by decide
  unfold AdvanceHours
  simp only [hd]
  rw [Add_seconds t _ hw, addExt_pos t _ he (by decide)]

/-- The state after `SetFixedClock()` and `n` calls of `AdvanceHours(2562047)`:
the second count grows by 9223369200 per call until it saturates. -/
theorem replicate_hours_max (n : Nat) :
    runAdvances (List.replicate n (Advance.hours 2562047)) (SetFixedClock init) =
      { AppClock := { nowFunc := fun e => e.fixedClock },
        fixedClock := { wall := 0,
                        ext := if unixToInternal + n * 9223369200 ≤ maxInt64
                          then unixToInternal + n * 9223369200 else maxInt64,
                        loc := 0 } } := by
  induction n with
  | zero => simp [runAdvances, SetFixedClock, FixedBaseline, unixTime, Clock.SetNow]; decide
  | succ n ih =>
    rw [List.replicate_succ', runAdvances_append, ih]
    show AdvanceHours 2562047 _ = _
    rw [AdvanceHours_max _ _ (show (0 : Nat) < 1000000000 by decide) (by
      simp only; unfold InInt64 minInt64 maxInt64 unixToInternal secondsPerDay; split_ifs <;> omega)]
    simp only [State.mk.injEq, Time.mk.injEq, true_and, and_true]
    unfold maxInt64 unixToInternal secondsPerDay
    push_cast
    split_ifs <;> omega

theorem Before_eq_After (t u : Time) : t.Before u = u.After t := by
  unfold Time.Before Time.After
  rw [Bool.and_comm]
  split_ifs
  · rfl
  · rw [decide_eq_decide]
    constructor
    · rintro (h | ⟨h1, h2⟩)
      · exact Or.inl h
      · exact Or.inr ⟨h1.symm, h2⟩
    · rintro (h | ⟨h1, h2⟩)
      · exact Or.inl h
      · exact Or.inr ⟨h1.symm, h2⟩

theorem After_asymm {t u : Time} (h : t.After u = true) : u.After t = false := by
  unfold Time.After at h ⊢
  rw [Bool.and_comm]
  split_ifs at h ⊢
  · simp only [decide_eq_true_eq, decide_eq_false_iff_not] at h ⊢; omega
  · simp only [decide_eq_true_eq, decide_eq_false_iff_not] at h ⊢; omega

theorem After_irrefl (t : Time) : t.After t = false := by
  unfold Time.After
  split_ifs
  · simp only [decide_eq_false_iff_not]; omega
  · simp only [decide_eq_false_iff_not]; omega

theorem Equal_refl (t : Time) : t.Equal t = true := by
  unfold Time.Equal
  split_ifs <;> simp

theorem not_After_of_Equal {t u : Time} (h : t.Equal u = true) : t.After u = false := by
  unfold Time.Equal at h
  unfold Time.After
  split_ifs at h ⊢
  · simp only [decide_eq_true_eq, decide_eq_false_iff_not] at h ⊢; omega
  · simp only [decide_eq_true_eq, decide_eq_false_iff_not] at h ⊢; omega

theorem Equal_of_not_After {t u : Time} (h1 : t.After u = false) (h2 : u.After t = false) :
    t.Equal u = true := by
  unfold Time.After at h1 h2
  unfold Time.Equal
  rw [Bool.and_comm] at h2
  split_ifs at h1 h2 ⊢
  · simp only [decide_eq_true_eq, decide_eq_false_iff_not] at h1 h2 ⊢; omega
  · simp only [decide_eq_true_eq, decide_eq_false_iff_not] at h1 h2 ⊢; omega

theorem baseline_plain : FixedBaseline.Plain ∧ FixedBaseline.loc = 0 :=
  ⟨⟨by decide, by decide⟩, rfl⟩

theorem Now_fixed_mode (s : State) (sys : Time)
    (h : s.AppClock = { nowFunc := fun e => e.fixedClock }) : Now s sys = s.fixedClock := by
  unfold Now Clock.Now
  rw [h]

theorem After_plusSeconds_one (t : Time) (hw : t.wall < 1000000000) :
    (t.plusSeconds 1).After t = true := by
  have h1 : t.hasMonotonic = false := hasMonotonic_of_lt (by omega)
  have h2 : (t.plusSeconds 1).hasMonotonic = false :=
    hasMonotonic_of_lt (by unfold Time.plusSeconds; simp only; omega)
  unfold Time.After Time.sec
  simp only [h1, h2, Bool.false_and, Bool.false_eq_true, if_false, decide_eq_true_eq]
  left
  unfold Time.plusSeconds
  simp only
  omega

theorem AdvanceFixed_one_second (st : State)
    (hp : st.fixedClock.Plain) (hsat : st.fixedClock.ext < maxInt64) :
    (AdvanceFixed 0 0 1 st).fixedClock = st.fixedClock.plusSeconds 1 := by
  obtain ⟨hw, he⟩ := hp
  unfold InInt64 minInt64 maxInt64 at he
  unfold maxInt64 at hsat
  rw [AdvanceFixed_exact st 0 0 1 hw (by omega) (by omega) (by omega)
    (by unfold InInt64 minInt64 maxInt64; omega) (by unfold InInt64 minInt64 maxInt64; omega)
    (by unfold InInt64 minInt64 maxInt64; omega)]
  simp [Time.plusSeconds]

theorem Add_zero_plain (t : Time) (hp : t.Plain) : t.Add 0 = t := by
  have h := Add_seconds t 0 hp.1
  rw [Int.zero_mul] at h
  rw [h, addExt_exact t 0 (by rw [Int.add_zero]; exact hp.2)]
  cases t
  simp

theorem unit_zero :
    Duration.mul (toDuration 0) Hour = 0 ∧ Duration.mul (toDuration 0) Minute = 0 ∧
    Duration.mul (toDuration 0) Second = 0 := by
  decide

theorem AdvanceHours_eq_AdvanceFixed (st : State) (n : Int) (hp : st.fixedClock.Plain) :
    AdvanceHours n st = AdvanceFixed n 0 0 st := by
  unfold AdvanceHours AdvanceFixed
  simp only [unit_zero.2.1, unit_zero.2.2]
  have h1 := (Add_plain st.fixedClock (Duration.mul (toDuration n) Hour) hp).1
  rw [Add_zero_plain _ h1, Add_zero_plain _ h1]

theorem AdvanceMinutes_eq_AdvanceFixed (st : State) (n : Int) (hp : st.fixedClock.Plain) :
    AdvanceMinutes n st = AdvanceFixed 0 n 0 st := by
  unfold AdvanceMinutes AdvanceFixed
  simp only [unit_zero.1, unit_zero.2.2]
  rw [Add_zero_plain _ hp]
  have h1 := (Add_plain st.fixedClock (Duration.mul (toDuration n) Minute) hp).1
  rw [Add_zero_plain _ h1]

theorem AdvanceSeconds_eq_AdvanceFixed (st : State) (n : Int) (hp : st.fixedClock.Plain) :
    AdvanceSeconds n st = AdvanceFixed 0 0 n st := by
  unfold AdvanceSeconds AdvanceFixed
  simp only [unit_zero.1, unit_zero.2.1]
  rw [Add_zero_plain _ hp, Add_zero_plain _ hp]

theorem plusSeconds_order (t : Time) (hw : t.wall < 1000000000) (k : Int) :
    (t.plusSeconds k).Before t = decide (k < 0) ∧ (t.plusSeconds k).After t = decide (0 < k) := by
  have h1 : t.hasMonotonic = false := hasMonotonic_of_lt (by omega)
  have h2 : (t.plusSeconds k).hasMonotonic = false :=
    hasMonotonic_of_lt (by unfold Time.plusSeconds; simp only; omega)
  unfold Time.Before Time.After Time.sec Time.nsec
  simp only [h1, h2, Bool.false_and, Bool.false_eq_true, if_false]
  unfold Time.plusSeconds
  simp only
  constructor <;> (rw [decide_eq_decide]; omega)

theorem AdvanceHours_exact (st : State) (n : Int) (hw : st.fixedClock.wall < 1000000000)
    (hb : -2562047 ≤ n ∧ n ≤ 2562047) (hsum : InInt64 (st.fixedClock.ext + 3600 * n)) :
    (AdvanceHours n st).fixedClock = st.fixedClock.plusSeconds (3600 * n) := by
  unfold AdvanceHours
  simp only
  rw [Add_unit_exact st.fixedClock n Hour 3600 hw (by decide)
    (by unfold InInt64 minInt64 maxInt64; omega)
    (by unfold InInt64 minInt64 maxInt64 Hour Minute Second Millisecond Microsecond Nanosecond; omega)
    (by rw [Int.mul_comm]; exact hsum), Int.mul_comm]

theorem AdvanceMinutes_exact (st : State) (n : Int) (hw : st.fixedClock.wall < 1000000000)
    (hb : -153722867 ≤ n ∧ n ≤ 153722867) (hsum : InInt64 (st.fixedClock.ext + 60 * n)) :
    (AdvanceMinutes n st).fixedClock = st.fixedClock.plusSeconds (60 * n) := by
  unfold AdvanceMinutes
  simp only
  rw [Add_unit_exact st.fixedClock n Minute 60 hw (by decide)
    (by unfold InInt64 minInt64 maxInt64; omega)
    (by unfold InInt64 minInt64 maxInt64 Minute Second Millisecond Microsecond Nanosecond; omega)
    (by rw [Int.mul_comm]; exact hsum), Int.mul_comm]

theorem AdvanceSeconds_exact (st : State) (n : Int) (hw : st.fixedClock.wall < 1000000000)
    (hb : -9223372036 ≤ n ∧ n ≤ 9223372036) (hsum : InInt64 (st.fixedClock.ext + n)) :
    (AdvanceSeconds n st).fixedClock = st.fixedClock.plusSeconds n := by
  unfold AdvanceSeconds
  simp only
  rw [Add_unit_exact st.fixedClock n Second 1 hw (by decide)
    (by unfold InInt64 minInt64 maxInt64; omega)
    (by unfold InInt64 minInt64 maxInt64 Second Millisecond Microsecond Nanosecond; omega)
    (by rw [Int.mul_one]; exact hsum), Int.mul_one]

theorem moved_order (t u : Time) (k : Int) (hw : t.wall < 1000000000)
    (hu : u = t.plusSeconds k) :
    (k < 0 → u.Before t = true) ∧ (0 < k → u.After t = true) := by
  subst hu
  obtain ⟨h1, h2⟩ := plusSeconds_order t hw k
  constructor
  · intro hk; rw [h1]; exact decide_eq_true hk
  · intro hk; rw [h2]; exact decide_eq_true hk

theorem advance_zero (st : State) (hp : st.fixedClock.Plain) :
    AdvanceHours 0 st = st ∧ AdvanceMinutes 0 st = st ∧ AdvanceSeconds 0 st = st ∧
    AdvanceFixed 0 0 0 st = st := by
  have h1 : AdvanceHours 0 st = st := by
    unfold AdvanceHours
    rw [unit_zero.1, Add_zero_plain _ hp]
  have h2 : AdvanceMinutes 0 st = st := by
    unfold AdvanceMinutes
    rw [unit_zero.2.1, Add_zero_plain _ hp]
  have h3 : AdvanceSeconds 0 st = st := by
    unfold AdvanceSeconds
    rw [unit_zero.2.2, Add_zero_plain _ hp]
  refine ⟨h1, h2, h3, ?_⟩
  rw [← AdvanceHours_eq_AdvanceFixed st 0 hp, h1]

theorem IgnoresFixed_timeNow : IgnoresFixed timeNow := fun _ _ _ => rfl

theorem exec_onTime (a : Advance) (s : State) :
    (a.exec s).fixedClock = a.onTime s.fixedClock ∧ (a.exec s).AppClock = s.AppClock := by
  cases a <;> exact ⟨rfl, rfl⟩

theorem SameReads_Now {s1 s2 : State} (h : SameReads s1 s2) (sys : Time) :
    Now s1 sys = Now s2 sys := by
  obtain ⟨hc, hf⟩ := h
  unfold Now Clock.Now
  rw [hc]
  rcases hf with hf | hf
  · rw [hf]
  · exact hf sys _ _

theorem SameReads_exec (c : Call) (hc : c.Clean) {s1 s2 : State} (h : SameReads s1 s2) :
    SameReads (c.exec s1) (c.exec s2) := by
  obtain ⟨ha, hf⟩ := h
  cases c with
  | SetFixedClock => exact ⟨rfl, Or.inl rfl⟩
  | ResetClock => exact ⟨rfl, Or.inr IgnoresFixed_timeNow⟩
  | ResetNow => exact ⟨rfl, Or.inr IgnoresFixed_timeNow⟩
  | SetNow f => exact ⟨rfl, Or.inr hc⟩
  | advance a =>
    refine ⟨?_, ?_⟩
    · show (a.exec s1).AppClock = (a.exec s2).AppClock
      rw [(exec_onTime a s1).2, (exec_onTime a s2).2, ha]
    · rcases hf with hf | hf
      · left
        show (a.exec s1).fixedClock = (a.exec s2).fixedClock
        rw [(exec_onTime a s1).1, (exec_onTime a s2).1, hf]
      · right
        show IgnoresFixed (a.exec s2).AppClock.nowFunc
        rw [(exec_onTime a s2).2]
        exact hf

theorem SameReads_run (cs : List Call) (hcs : ∀ c ∈ cs, c.Clean) {s1 s2 : State}
    (h : SameReads s1 s2) : SameReads (run cs s1) (run cs s2) := by
  induction cs generalizing s1 s2 with
  | nil => exact h
  | cons c cs ih =>
    exact ih (fun c' hc' => hcs c' (List.mem_cons_of_mem c hc'))
      (SameReads_exec c (hcs c (List.mem_cons_self c cs)) h)

theorem exec_deltas (a : Advance) (s : State) :
    (a.exec s).fixedClock = s.fixedClock.addAll a.deltas := by
  cases a <;> rfl

theorem exec_raw (c : Call) (s : State) : c.raw.exec s.raw = (c.exec s).raw := by
  cases c with
  | SetFixedClock => rfl
  | ResetClock => rfl
  | ResetNow => rfl
  | SetNow f => rfl
  | advance a =>
    show ({ AppClock := s.AppClock.raw, fixedClock := a.onTime s.fixedClock } : RawState) =
      { AppClock := (a.exec s).AppClock.raw, fixedClock := (a.exec s).fixedClock }
    rw [(exec_onTime a s).1, (exec_onTime a s).2]

theorem runRaw_raw (cs : List Call) (s : State) :
    runRaw (cs.map Call.raw) s.raw = (run cs s).raw := by
  induction cs generalizing s with
  | nil => rfl
  | cons c cs ih =>
    show runRaw (cs.map Call.raw) (c.raw.exec s.raw) = (run cs (c.exec s)).raw
    rw [exec_raw, ih]

theorem exec_installed (c : RawCall) (hc : c.NonNil) (s : RawState)
    (h : s.AppClock.nowFunc.isSome = true) : (c.exec s).AppClock.nowFunc.isSome = true := by
  cases c with
  | SetFixedClock => rfl
  | ResetClock => rfl
  | ResetNow => rfl
  | SetNow f => exact hc
  | advance a => exact h

theorem runRaw_installed (cs : List RawCall) (hcs : ∀ c ∈ cs, c.NonNil) (s : RawState)
    (h : s.AppClock.nowFunc.isSome = true) : (runRaw cs s).AppClock.nowFunc.isSome = true := by
  induction cs generalizing s with
  | nil => exact h
  | cons c cs ih =>
    exact ih (fun c' hc' => hcs c' (List.mem_cons_of_mem c hc')) (c.exec s)
      (exec_installed c (hcs c (List.mem_cons_self c cs)) s h)

theorem State_eq_of (s1 s2 : State) (hc : s1.AppClock = s2.AppClock)
    (hf : s1.fixedClock = s2.fixedClock) : s1 = s2 := by
  cases s1; cases s2
  simp only at hc hf
  rw [hc, hf]

theorem plusSeconds_cancel (t : Time) (a b : Int) (h : a + b = 0) :
    (t.plusSeconds a).plusSeconds b = t := by
  cases t
  simp only [Time.plusSeconds, Time.mk.injEq, and_true, true_and]
  omega

theorem plusSeconds_plusSeconds (t : Time) (a b : Int) :
    (t.plusSeconds a).plusSeconds b = t.plusSeconds (a + b) := by
  simp [Time.plusSeconds, Int.add_assoc]

theorem exec_exact (a : Advance) (s : State) (hp : s.fixedClock.Plain)
    (hx : a.Exact s.fixedClock.ext) :
    (a.exec s).fixedClock = s.fixedClock.plusSeconds a.asked := by
  cases a with
  | fixed h m sec =>
    obtain ⟨hh, hm, hs, h1, h2, h3⟩ := hx
    show (AdvanceFixed h m sec s).fixedClock = _
    rw [AdvanceFixed_exact s h m sec hp.1 hh hm hs h1 h2 h3, plusSeconds_plusSeconds,
      plusSeconds_plusSeconds]
    simp only [Advance.asked, Int.add_assoc]
  | tick =>
    show (AdvanceFixed 0 0 1 s).fixedClock = _
    have hx1 : InInt64 (s.fixedClock.ext + 1) := hx
    unfold InInt64 minInt64 maxInt64 at hx1
    exact AdvanceFixed_one_second s hp (by unfold maxInt64; omega)
  | hours n => exact AdvanceHours_exact s n hp.1 hx.1 hx.2
  | minutes n => exact AdvanceMinutes_exact s n hp.1 hx.1 hx.2
  | seconds n => exact AdvanceSeconds_exact s n hp.1 hx.1 hx.2

theorem runAdvances_exact (as : List Advance) (s : State)
    (hp : s.fixedClock.Plain ∧ s.fixedClock.loc = 0) (hx : ExactFrom s.fixedClock.ext as) :
    (runAdvances as s).fixedClock = s.fixedClock.plusSeconds (as.map Advance.asked).sum := by
  induction as generalizing s with
  | nil =>
    show s.fixedClock = _
    cases s.fixedClock
    simp [Time.plusSeconds]
  | cons a as ih =>
    obtain ⟨hx1, hx2⟩ := hx
    have e := exec_exact a s hp.1 hx1
    show (runAdvances as (a.exec s)).fixedClock = _
    rw [ih (a.exec s) (exec_plain (Call.advance a) s hp) (by rw [e]; exact hx2), e,
      plusSeconds_plusSeconds]
    simp

theorem IgnoresC_timeNow (P : Program) : IgnoresC P Func.timeNow := by
  intro sys fuel m g
  cases fuel <;> rfl

theorem IgnoresC_fixed (P : Program) : IgnoresC P Func.fixed := by
  intro sys fuel m g
  cases fuel <;> rfl

theorem IgnoresPackage_timeNow (P : Program) : IgnoresPackage P Func.timeNow := by
  intro sys fuel m a t
  cases fuel <;> rfl

theorem exec_OnPackage (k : MemCall) (hk : k.OnPackage) (m : Mem) :
    (k.exec m).c = m.c ∧
    k.exec m = { m with AppClock := (k.exec m).AppClock, fixedClock := (k.exec m).fixedClock } := by
  cases k with
  | cSetNow g => exact absurd hk (fun h => h)
  | cResetNow => exact absurd hk (fun h => h)
  | SetFixedClock => exact ⟨rfl, rfl⟩
  | ResetClock => exact ⟨rfl, rfl⟩
  | advance a => exact ⟨rfl, rfl⟩
  | SetNow f => exact ⟨rfl, rfl⟩
  | ResetNow => exact ⟨rfl, rfl⟩

/-- In real-time mode and in fixed mode the `Now()` of `Mem` returns what the
`Now()` of the package state without effects returns. -/
theorem Mem_Now_agrees (P : Program) (m : Mem) (sys : Time) (fuel : Nat) :
    (m.AppClock = Func.timeNow →
      returned (Mem.Now P sys (fuel + 1) m) =
        some (Now { AppClock := { nowFunc := timeNow }, fixedClock := m.fixedClock } sys)) ∧
    (m.AppClock = Func.fixed →
      returned (Mem.Now P sys (fuel + 1) m) =
        some (Now { AppClock := { nowFunc := fun e => e.fixedClock },
                    fixedClock := m.fixedClock } sys)) := by
  constructor
  · intro h
    unfold Mem.Now
    rw [h]
    rfl
  · intro h
    unfold Mem.Now
    rw [h]
    rfl

/-! ## The claims -/

/-- C1: after `SetFixedClock()`, every read of the package-level `Now()` made
before any advance returns exactly `FixedBaseline`, whatever the system
clock reads at the moment of the read; two consecutive reads are identical. -/
theorem C1_fixed_reads_baseline (s : State) (sys1 sys2 : Time) :
    Now (SetFixedClock s) sys1 = FixedBaseline ∧
    Now (SetFixedClock s) sys2 = FixedBaseline ∧
    Now (SetFixedClock s) sys1 = Now (SetFixedClock s) sys2 :=
  ⟨rfl, rfl, rfl⟩

set_option maxRecDepth 100000 in
/-- C2 as stated fails: 2562048 is a Go `int`, but
`time.Duration(2562048) * time.Hour` wraps around in int64, so after
`SetFixedClock(); AdvanceHours(2562048)` the instant `Now()` returns is not
`FixedBaseline` plus 2562048 hours: it is before `FixedBaseline`. -/
theorem C2_overflow_counterexample :
    InInt64 2562048 ∧
    Now (runAdvances [Advance.hours 2562048] (SetFixedClock init)) FixedBaseline ≠
      FixedBaseline.plusSeconds ([Advance.hours 2562048].map Advance.asked).sum ∧
    (Now (runAdvances [Advance.hours 2562048] (SetFixedClock init)) FixedBaseline).Before
      FixedBaseline = true := by
  have e : Now (runAdvances [Advance.hours 2562048] (SetFixedClock init)) FixedBaseline =
      (AdvanceHours 2562048 (SetFixedClock init)).fixedClock := rfl
  rw [e]
  decide

set_option maxRecDepth 100000 in
/-- C2, amended: the source installed by `SetFixedClock()` reads the stored
fixed instant when it is called, so after `SetFixedClock()` and any sequence
of advance calls `Now()` returns the stored fixed instant, whatever the
system clock reads; that instant is `FixedBaseline` plus the sum of all the
deltas asked for as long as every product `time.Duration(n) * unit` fits in
int64 and the stored second count stays in int64 after each addition.
`SetFixedClock(); AdvanceHours(2)` reads 1970-01-01T02:00:00Z and a further
`Tick()` reads 1970-01-01T02:00:01Z. -/
theorem C2_fixed_source_reads_stored_instant (s0 : State) (as : List Advance) (sys : Time) :
    Now (runAdvances as (SetFixedClock s0)) sys = (runAdvances as (SetFixedClock s0)).fixedClock ∧
    (ExactFrom FixedBaseline.ext as →
      Now (runAdvances as (SetFixedClock s0)) sys =
        FixedBaseline.plusSeconds (as.map Advance.asked).sum) ∧
    Now (AdvanceHours 2 (SetFixedClock s0)) sys = unixTime (2 * 3600) 0 ∧
    Now (Tick (AdvanceHours 2 (SetFixedClock s0))) sys = unixTime (2 * 3600 + 1) 0 := by
  have h0 : Now (runAdvances as (SetFixedClock s0)) sys =
      (runAdvances as (SetFixedClock s0)).fixedClock :=
    Now_fixed_mode _ sys (runAdvances_AppClock as (SetFixedClock s0))
  refine ⟨h0, ?_, ?_, ?_⟩
  · intro hx
    rw [h0]
    exact runAdvances_exact as (SetFixedClock s0) baseline_plain hx
  · have e : Now (AdvanceHours 2 (SetFixedClock s0)) sys =
        (AdvanceHours 2 (SetFixedClock s0)).fixedClock := rfl
    rw [e, show SetFixedClock s0 = SetFixedClock init from rfl]
    decide
  · have e : Now (Tick (AdvanceHours 2 (SetFixedClock s0))) sys =
        (Tick (AdvanceHours 2 (SetFixedClock s0))).fixedClock := rfl
    rw [e, show SetFixedClock s0 = SetFixedClock init from rfl]
    decide

set_option maxRecDepth 100000 in
/-- C2, amended, at `SetFixedClock(); AdvanceHours(2); Tick(); AdvanceFixed(0, -1, 30)`. -/
theorem C2_fixed_source_reads_stored_instant_witness :
    Now (runAdvances [Advance.hours 2, Advance.tick, Advance.fixed 0 (-1) 30]
      (SetFixedClock init)) (unixTime 5 0) =
      FixedBaseline.plusSeconds
        ([Advance.hours 2, Advance.tick, Advance.fixed 0 (-1) 30].map Advance.asked).sum :=
  (C2_fixed_source_reads_stored_instant init
    [Advance.hours 2, Advance.tick, Advance.fixed 0 (-1) 30] (unixTime 5 0)).2.1
    (by
      refine ⟨⟨by decide, ?_⟩, ?_, ⟨by decide, by decide, by decide, ?_, ?_, ?_⟩, True.intro⟩
      all_goals (show InInt64 _; decide))

set_option maxRecDepth 100000 in
/-- C3 as stated fails: 2562048 is a Go `int`, but `time.Duration(2562048) * time.Hour`
wraps around in int64 to a negative duration, so `AdvanceFixed(2562048, 0, 0)`
called right after `SetFixedClock()` does not leave the stored instant
`3600 * 2562048` seconds after `FixedBaseline`: it leaves it before
`FixedBaseline`.  And once 1000000301 calls of `AdvanceHours(2562047)` have
driven the stored second count to `1<<63 - 1`, where `Add` saturates,
`AdvanceFixed(0, 0, 1)` leaves the stored instant where it is. -/
theorem C3_overflow_counterexample :
    InInt64 2562048 ∧
    Duration.mul (toDuration 2562048) Hour = -9223371273709551616 ∧
    (AdvanceFixed 2562048 0 0 (SetFixedClock init)).fixedClock ≠
      (SetFixedClock init).fixedClock.plusSeconds (3600 * 2562048 + 60 * 0 + 0) ∧
    (AdvanceFixed 2562048 0 0 (SetFixedClock init)).fixedClock.Before
      (SetFixedClock init).fixedClock = true ∧
    (AdvanceFixed 0 0 1 (runAdvances (List.replicate 1000000301 (Advance.hours 2562047))
      (SetFixedClock init))).fixedClock =
      (runAdvances (List.replicate 1000000301 (Advance.hours 2562047))
        (SetFixedClock init)).fixedClock := by
  rw [replicate_hours_max]
  decide

/-- C3, amended: in every reachable package state, for `hours`, `minutes`,
`seconds` whose products with `time.Hour`, `time.Minute`, `time.Second` fit
in int64, and as long as the second count of the stored instant stays in
int64 after each of the three additions, `AdvanceFixed` moves the stored
fixed instant by exactly `3600*hours + 60*minutes + seconds` seconds, added
in the order hours, minutes, seconds, and changes nothing else. -/
theorem C3_AdvanceFixed_exact (cs : List Call) (hours minutes seconds : Int)
    (hh : -2562047 ≤ hours ∧ hours ≤ 2562047)
    (hm : -153722867 ≤ minutes ∧ minutes ≤ 153722867)
    (hs : -9223372036 ≤ seconds ∧ seconds ≤ 9223372036)
    (h1 : InInt64 ((run cs init).fixedClock.ext + 3600 * hours))
    (h2 : InInt64 ((run cs init).fixedClock.ext + 3600 * hours + 60 * minutes))
    (h3 : InInt64 ((run cs init).fixedClock.ext + 3600 * hours + 60 * minutes + seconds)) :
    (AdvanceFixed hours minutes seconds (run cs init)).fixedClock =
      (((run cs init).fixedClock.plusSeconds (3600 * hours)).plusSeconds
        (60 * minutes)).plusSeconds seconds ∧
    (AdvanceFixed hours minutes seconds (run cs init)).fixedClock =
      (run cs init).fixedClock.plusSeconds (3600 * hours + 60 * minutes + seconds) ∧
    (AdvanceFixed hours minutes seconds (run cs init)).AppClock = (run cs init).AppClock := by
  have hw := (run_plain cs init init_plain).1.1
  have e := AdvanceFixed_exact (run cs init) hours minutes seconds hw hh hm hs h1 h2 h3
  refine ⟨e, ?_, rfl⟩
  rw [e]
  simp [Time.plusSeconds, Int.add_assoc]

set_option maxRecDepth 100000 in
/-- C3, amended, at `SetFixedClock(); AdvanceFixed(1, -30, 15)`. -/
theorem C3_AdvanceFixed_exact_witness :
    (AdvanceFixed 1 (-30) 15 (run [Call.SetFixedClock] init)).fixedClock =
      (run [Call.SetFixedClock] init).fixedClock.plusSeconds (3600 * 1 + 60 * (-30) + 15) :=
  (C3_AdvanceFixed_exact [Call.SetFixedClock] 1 (-30) 15 (by decide) (by decide) (by decide)
    (by decide) (by decide) (by decide)).2.1

set_option maxRecDepth 100000 in
/-- C4 as stated fails: 153722868 is a Go `int`, but
`time.Duration(153722868) * time.Minute` wraps around in int64, so
`AdvanceHours(0); AdvanceMinutes(153722868); AdvanceSeconds(0)` called right
after `SetFixedClock()` does not leave the stored instant 153722868 minutes
after `FixedBaseline`: it leaves it before `FixedBaseline`.  And once
1000000301 calls of `AdvanceHours(2562047)` have driven the stored second
count to `1<<63 - 1`, where `Add` saturates,
`AdvanceHours(0); AdvanceMinutes(0); AdvanceSeconds(1)` leaves the stored
instant where it is. -/
theorem C4_overflow_counterexample :
    InInt64 153722868 ∧
    Duration.mul (toDuration 153722868) Minute = -9223371993709551616 ∧
    (AdvanceSeconds 0 (AdvanceMinutes 153722868 (AdvanceHours 0
      (SetFixedClock init)))).fixedClock ≠
      (SetFixedClock init).fixedClock.plusSeconds (3600 * 0 + 60 * 153722868 + 0) ∧
    (AdvanceSeconds 0 (AdvanceMinutes 153722868 (AdvanceHours 0
      (SetFixedClock init)))).fixedClock.Before (SetFixedClock init).fixedClock = true ∧
    (AdvanceSeconds 1 (AdvanceMinutes 0 (AdvanceHours 0
      (runAdvances (List.replicate 1000000301 (Advance.hours 2562047))
        (SetFixedClock init))))).fixedClock =
      (runAdvances (List.replicate 1000000301 (Advance.hours 2562047))
        (SetFixedClock init)).fixedClock := by
  rw [replicate_hours_max]
  decide

set_option maxRecDepth 100000 in
/-- C4, amended: in every reachable package state and for all `h`, `m`, `s`,
`AdvanceHours(h); AdvanceMinutes(m); AdvanceSeconds(s)` leaves the same
package state as `AdvanceFixed(h, m, s)`; when the three products with
`time.Hour`, `time.Minute`, `time.Second` fit in int64 and the second count
of the stored instant stays in int64 after each addition, that instant is
exactly `3600*h + 60*m + s` seconds after the old one; from `FixedBaseline`,
`AdvanceHours(1); AdvanceMinutes(30); AdvanceSeconds(15)` gives
1970-01-01T01:30:15Z. -/
theorem C4_unit_advances_compose (cs : List Call) (h m s : Int) :
    AdvanceSeconds s (AdvanceMinutes m (AdvanceHours h (run cs init))) =
      AdvanceFixed h m s (run cs init) ∧
    ((-2562047 ≤ h ∧ h ≤ 2562047) → (-153722867 ≤ m ∧ m ≤ 153722867) →
      (-9223372036 ≤ s ∧ s ≤ 9223372036) →
      InInt64 ((run cs init).fixedClock.ext + 3600 * h) →
      InInt64 ((run cs init).fixedClock.ext + 3600 * h + 60 * m) →
      InInt64 ((run cs init).fixedClock.ext + 3600 * h + 60 * m + s) →
      (AdvanceSeconds s (AdvanceMinutes m (AdvanceHours h (run cs init)))).fixedClock =
        (run cs init).fixedClock.plusSeconds (3600 * h + 60 * m + s)) ∧
    (AdvanceSeconds 15 (AdvanceMinutes 30 (AdvanceHours 1 (SetFixedClock init)))).fixedClock =
      unixTime (1 * 3600 + 30 * 60 + 15) 0 := by
  refine ⟨rfl, ?_, by decide⟩
  intro hh hm hs h1 h2 h3
  have hw := (run_plain cs init init_plain).1.1
  have e := AdvanceFixed_exact (run cs init) h m s hw hh hm hs h1 h2 h3
  have e2 : (AdvanceSeconds s (AdvanceMinutes m (AdvanceHours h (run cs init)))).fixedClock =
      (AdvanceFixed h m s (run cs init)).fixedClock := rfl
  rw [e2, e]
  simp [Time.plusSeconds, Int.add_assoc]

set_option maxRecDepth 100000 in
/-- C4, amended, at `SetFixedClock(); AdvanceHours(1); AdvanceMinutes(30); AdvanceSeconds(15)`. -/
theorem C4_unit_advances_compose_witness :
    (AdvanceSeconds 15 (AdvanceMinutes 30 (AdvanceHours 1
      (run [Call.SetFixedClock] init)))).fixedClock =
      (run [Call.SetFixedClock] init).fixedClock.plusSeconds (3600 * 1 + 60 * 30 + 15) :=
  (C4_unit_advances_compose [Call.SetFixedClock] 1 30 15).2.1 (by decide) (by decide) (by decide)
    (by decide) (by decide) (by decide)

/-- C5: whatever the prior state (installed source and stored instant),
`SetFixedClock()` leaves the stored fixed instant equal to `FixedBaseline`
and `Now()` returning `FixedBaseline`; `SetFixedClock(); AdvanceFixed(h, m, s);
SetFixedClock()`, and more generally `SetFixedClock()` after any sequence of
calls, ends in the same state as a single `SetFixedClock()`. -/
theorem C5_reenable_resets (s : State) (cs : List Call) (hours minutes seconds : Int)
    (sys : Time) :
    (SetFixedClock s).fixedClock = FixedBaseline ∧
    Now (SetFixedClock s) sys = FixedBaseline ∧
    SetFixedClock (AdvanceFixed hours minutes seconds (SetFixedClock s)) = SetFixedClock s ∧
    SetFixedClock (run cs (SetFixedClock s)) = SetFixedClock s :=
  ⟨rfl, rfl, rfl, rfl⟩

/-- C6: after `SetFixedClock()`, any sequence of advances and `ResetClock()`,
`Now()` returns the reading of the system clock (`time.Now`), whatever the
stored fixed instant is; so when the system time is not the instant
`FixedBaseline` and not before it, `Now()` differs from `FixedBaseline` and
is not before it. -/
theorem C6_reset_restores_real_time (s0 : State) (as : List Advance) (sys : Time) :
    Now (ResetClock (runAdvances as (SetFixedClock s0))) sys = sys ∧
    Now (ResetClock (runAdvances as (SetFixedClock s0))) sys =
      timeNow { sys := sys, fixedClock := (runAdvances as (SetFixedClock s0)).fixedClock } ∧
    (sys.Equal FixedBaseline = false → sys.Before FixedBaseline = false →
      Now (ResetClock (runAdvances as (SetFixedClock s0))) sys ≠ FixedBaseline ∧
      (Now (ResetClock (runAdvances as (SetFixedClock s0))) sys).Equal FixedBaseline = false ∧
      (Now (ResetClock (runAdvances as (SetFixedClock s0))) sys).Before FixedBaseline = false) := by
  have e : Now (ResetClock (runAdvances as (SetFixedClock s0))) sys = sys := rfl
  refine ⟨e, e, ?_⟩
  intro h1 h2
  rw [e]
  refine ⟨?_, h1, h2⟩
  intro h
  rw [h, Equal_refl] at h1
  exact Bool.noConfusion h1

/-- C6 at a system clock reading one second after `FixedBaseline`. -/
theorem C6_reset_restores_real_time_witness :
    Now (ResetClock (runAdvances [Advance.tick] (SetFixedClock init))) (unixTime 1 0) ≠
      FixedBaseline :=
  ((C6_reset_restores_real_time init [Advance.tick] (unixTime 1 0)).2.2
    (by decide) (by decide)).1

/-- C7: for all instants `a`, `b`, `Clock.Max(a, b)` is `a` when `a` is
strictly after `b`, is `b` when `b` is strictly after `a`, and is the second
argument `b` when the two are the same instant; the result is one of the two
arguments and is before neither. -/
theorem C7_Max_returns_later (c : Clock) (a b : Time) :
    (a.After b = true → c.Max a b = a) ∧
    (b.After a = true → c.Max a b = b) ∧
    (a.Equal b = true → c.Max a b = b) ∧
    (c.Max a b = a ∨ c.Max a b = b) ∧
    (c.Max a b).Before a = false ∧
    (c.Max a b).Before b = false := by
  unfold Clock.Max
  refine ⟨?_, ?_, ?_, ?_, ?_, ?_⟩
  · intro h; rw [if_pos h]
  · intro h; rw [if_neg (by rw [After_asymm h]; simp)]
  · intro h; rw [if_neg (by rw [not_After_of_Equal h]; simp)]
  · split_ifs
    · exact Or.inl rfl
    · exact Or.inr rfl
  · split_ifs with h
    · rw [Before_eq_After]; exact After_irrefl a
    · rw [Before_eq_After]; simpa using h
  · split_ifs with h
    · rw [Before_eq_After]; exact After_asymm h
    · rw [Before_eq_After]; exact After_irrefl b

set_option maxRecDepth 100000 in
/-- C7 at `a` one second after `FixedBaseline` and `b = FixedBaseline`. -/
theorem C7_Max_returns_later_witness :
    init.AppClock.Max (unixTime 1 0) FixedBaseline = unixTime 1 0 :=
  (C7_Max_returns_later init.AppClock (unixTime 1 0) FixedBaseline).1 (by decide)

/-- C8 as stated fails for value equality: `FixedBaseline` and the same
instant held with another `Location` pointer are one instant in two values;
neither is after the other, so each call of `Max` returns its own second
argument and the two results are different values. -/
theorem C8_two_representations_counterexample :
    FixedBaseline.Equal { FixedBaseline with loc := 1 } = true ∧
    init.AppClock.Max FixedBaseline { FixedBaseline with loc := 1 } =
      { FixedBaseline with loc := 1 } ∧
    init.AppClock.Max { FixedBaseline with loc := 1 } FixedBaseline = FixedBaseline ∧
    init.AppClock.Max FixedBaseline { FixedBaseline with loc := 1 } ≠
      init.AppClock.Max { FixedBaseline with loc := 1 } FixedBaseline := by
  decide

/-- C8, amended: for all instants `t1`, `t2`, `Clock.Max(t1, t2)` and
`Clock.Max(t2, t1)` are the same instant (`time.Equal`), the greater of the
two: both are `t1` when `t1` is strictly after `t2` and both are `t2` when
`t2` is strictly after `t1`; when neither is after the other the two
arguments are the same instant and each call returns its own second
argument, so the results are the same value when `t1` and `t2` are.  With the
fixed clock installed and `time1 := Now()`, `time2 := Now()`, both
`Max(time1, time2)` and `Max(time2, time1)` are `time2`. -/
theorem C8_Max_argument_order (c : Clock) (t1 t2 : Time) (s0 : State) (sys1 sys2 : Time) :
    (c.Max t1 t2).Equal (c.Max t2 t1) = true ∧
    (t1.After t2 = true → c.Max t1 t2 = t1 ∧ c.Max t2 t1 = t1) ∧
    (t2.After t1 = true → c.Max t1 t2 = t2 ∧ c.Max t2 t1 = t2) ∧
    (t1.After t2 = false → t2.After t1 = false →
      c.Max t1 t2 = t2 ∧ c.Max t2 t1 = t1 ∧ t1.Equal t2 = true) ∧
    (t1 = t2 → c.Max t1 t2 = c.Max t2 t1) ∧
    c.Max (Now (SetFixedClock s0) sys1) (Now (SetFixedClock s0) sys2) =
      Now (SetFixedClock s0) sys2 ∧
    c.Max (Now (SetFixedClock s0) sys2) (Now (SetFixedClock s0) sys1) =
      Now (SetFixedClock s0) sys2 := by
  have k1 : t1.After t2 = true → c.Max t1 t2 = t1 ∧ c.Max t2 t1 = t1 := by
    intro h
    unfold Clock.Max
    rw [if_pos h, if_neg (by rw [After_asymm h]; simp)]
    exact ⟨rfl, rfl⟩
  have k2 : t2.After t1 = true → c.Max t1 t2 = t2 ∧ c.Max t2 t1 = t2 := by
    intro h
    unfold Clock.Max
    rw [if_pos h, if_neg (by rw [After_asymm h]; simp)]
    exact ⟨rfl, rfl⟩
  have k3 : t1.After t2 = false → t2.After t1 = false →
      c.Max t1 t2 = t2 ∧ c.Max t2 t1 = t1 ∧ t1.Equal t2 = true := by
    intro h12 h21
    unfold Clock.Max
    rw [if_neg (by rw [h12]; simp), if_neg (by rw [h21]; simp)]
    exact ⟨rfl, rfl, Equal_of_not_After h12 h21⟩
  refine ⟨?_, k1, k2, k3, ?_, ?_, ?_⟩
  · by_cases h12 : t1.After t2 = true
    · rw [(k1 h12).1, (k1 h12).2]
      exact Equal_refl t1
    · by_cases h21 : t2.After t1 = true
      · rw [(k2 h21).1, (k2 h21).2]
        exact Equal_refl t2
      · have h12f : t1.After t2 = false := by simpa using h12
        have h21f : t2.After t1 = false := by simpa using h21
        obtain ⟨e1, e2, -⟩ := k3 h12f h21f
        rw [e1, e2]
        exact Equal_of_not_After h21f h12f
  · intro h
    rw [h]
  · have e : ∀ sys, Now (SetFixedClock s0) sys = FixedBaseline := fun _ => rfl
    rw [e, e]
    unfold Clock.Max
    rw [if_neg (by rw [After_irrefl]; simp)]
  · have e : ∀ sys, Now (SetFixedClock s0) sys = FixedBaseline := fun _ => rfl
    rw [e, e]
    unfold Clock.Max
    rw [if_neg (by rw [After_irrefl]; simp)]

set_option maxRecDepth 100000 in
/-- C8, amended, at `t1 = FixedBaseline` and `t2` one second later. -/
theorem C8_Max_argument_order_witness :
    init.AppClock.Max FixedBaseline (unixTime 1 0) = unixTime 1 0 ∧
    init.AppClock.Max (unixTime 1 0) FixedBaseline = unixTime 1 0 :=
  (C8_Max_argument_order init.AppClock FixedBaseline (unixTime 1 0) init FixedBaseline
    FixedBaseline).2.2.1 (by decide)

set_option maxRecDepth 100000 in
/-- C9 as stated fails: `SetFixedClock()` followed by 1000000301 calls of
`AdvanceHours(2562047)` leaves the stored instant at the largest second
count a `time.Time` holds (`1<<63 - 1`, where `Add` saturates); from there
neither `Tick()` nor `AdvanceFixed(0, 0, 1)` moves it, so the next `Now()` is
not strictly later than the previous one. -/
theorem C9_saturation_counterexample :
    (runAdvances (List.replicate 1000000301 (Advance.hours 2562047))
      (SetFixedClock init)).fixedClock = { wall := 0, ext := 9223372036854775807, loc := 0 } ∧
    (Now (Tick (runAdvances (List.replicate 1000000301 (Advance.hours 2562047))
      (SetFixedClock init))) FixedBaseline).After
      (Now (runAdvances (List.replicate 1000000301 (Advance.hours 2562047))
        (SetFixedClock init)) FixedBaseline) = false ∧
    (Now (AdvanceFixed 0 0 1 (runAdvances (List.replicate 1000000301 (Advance.hours 2562047))
      (SetFixedClock init))) FixedBaseline).After
      (Now (runAdvances (List.replicate 1000000301 (Advance.hours 2562047))
        (SetFixedClock init)) FixedBaseline) = false := by
  rw [replicate_hours_max]
  decide

/-- C9, amended: in fixed mode (after `SetFixedClock()` and any sequence of
advances), as long as the second count of the stored instant is below the
largest one a `time.Time` holds (`1<<63 - 1`), `Now()` after
`AdvanceFixed(0, 0, 1)`, and likewise after `Tick()`, is strictly later than
`Now()` before the call. -/
theorem C9_advance_strictly_later (s0 : State) (as : List Advance) (sys sys1 : Time)
    (hsat : (runAdvances as (SetFixedClock s0)).fixedClock.ext < maxInt64) :
    (Now (AdvanceFixed 0 0 1 (runAdvances as (SetFixedClock s0))) sys1).After
      (Now (runAdvances as (SetFixedClock s0)) sys) = true ∧
    (Now (Tick (runAdvances as (SetFixedClock s0))) sys1).After
      (Now (runAdvances as (SetFixedClock s0)) sys) = true := by
  have hp := (runAdvances_plain as (SetFixedClock s0) baseline_plain).1
  have hc : (runAdvances as (SetFixedClock s0)).AppClock = { nowFunc := fun e => e.fixedClock } :=
    runAdvances_AppClock as (SetFixedClock s0)
  have h0 := Now_fixed_mode (runAdvances as (SetFixedClock s0)) sys hc
  have h1 := Now_fixed_mode (AdvanceFixed 0 0 1 (runAdvances as (SetFixedClock s0))) sys1 hc
  have key : (Now (AdvanceFixed 0 0 1 (runAdvances as (SetFixedClock s0))) sys1).After
      (Now (runAdvances as (SetFixedClock s0)) sys) = true := by
    rw [h0, h1, AdvanceFixed_one_second _ hp hsat]
    exact After_plusSeconds_one _ hp.1
  exact ⟨key, key⟩

set_option maxRecDepth 100000 in
/-- C9, amended, at `SetFixedClock(); AdvanceHours(2)`. -/
theorem C9_advance_strictly_later_witness :
    (Now (Tick (runAdvances [Advance.hours 2] (SetFixedClock init))) FixedBaseline).After
      (Now (runAdvances [Advance.hours 2] (SetFixedClock init)) FixedBaseline) = true :=
  (C9_advance_strictly_later init [Advance.hours 2] FixedBaseline FixedBaseline (by decide)).2

/-- C10: for every `Clock` `c` and source function `f`, after `c.SetNow(f)`
each `c.Now()` returns `f()`; when the clock is `AppClock`, the package-level
`Now()` returns `f()` too, right after the call and after any sequence of
advance calls (none of which replaces the source). -/
theorem C10_SetNow_takes_effect (c : Clock) (f : Env → Time) (e : Env) (s : State)
    (as : List Advance) (sys : Time) :
    (c.SetNow f).Now e = f e ∧
    Now (Call.exec (Call.SetNow f) s) sys = f { sys := sys, fixedClock := s.fixedClock } ∧
    Now (runAdvances as (Call.exec (Call.SetNow f) s)) sys =
      f { sys := sys, fixedClock := (runAdvances as (Call.exec (Call.SetNow f) s)).fixedClock } := by
  refine ⟨rfl, rfl, ?_⟩
  unfold Now Clock.Now
  rw [runAdvances_AppClock]
  rfl

set_option maxRecDepth 100000 in
/-- C11 as stated fails in its parenthesis: once 1000000301 calls of
`AdvanceHours(2562047)` after `SetFixedClock()` have driven the stored second
count to `1<<63 - 1`, where `Add` saturates, `Tick()` leaves the stored
instant where it is and not one second later. -/
theorem C11_tick_saturation_counterexample :
    (Tick (runAdvances (List.replicate 1000000301 (Advance.hours 2562047))
      (SetFixedClock init))).fixedClock =
      (runAdvances (List.replicate 1000000301 (Advance.hours 2562047))
        (SetFixedClock init)).fixedClock ∧
    (Tick (runAdvances (List.replicate 1000000301 (Advance.hours 2562047))
      (SetFixedClock init))).fixedClock ≠
      (runAdvances (List.replicate 1000000301 (Advance.hours 2562047))
        (SetFixedClock init)).fixedClock.plusSeconds 1 := by
  rw [replicate_hours_max]
  decide

/-- C11, amended: in every reachable package state and for every `n`,
`Tick()` leaves the same state as `AdvanceFixed(0, 0, 1)`, `AdvanceHours(n)`
the same as `AdvanceFixed(n, 0, 0)`, `AdvanceMinutes(n)` the same as
`AdvanceFixed(0, n, 0)` and `AdvanceSeconds(n)` the same as
`AdvanceFixed(0, 0, n)`; `Tick()` moves the stored instant by exactly one
second as long as its second count is below `1<<63 - 1`. -/
theorem C11_convenience_mutators (cs : List Call) (n : Int) :
    Tick (run cs init) = AdvanceFixed 0 0 1 (run cs init) ∧
    AdvanceHours n (run cs init) = AdvanceFixed n 0 0 (run cs init) ∧
    AdvanceMinutes n (run cs init) = AdvanceFixed 0 n 0 (run cs init) ∧
    AdvanceSeconds n (run cs init) = AdvanceFixed 0 0 n (run cs init) ∧
    ((run cs init).fixedClock.ext < maxInt64 →
      (Tick (run cs init)).fixedClock = (run cs init).fixedClock.plusSeconds 1) := by
  have hp := (run_plain cs init init_plain).1
  exact ⟨rfl, AdvanceHours_eq_AdvanceFixed _ n hp, AdvanceMinutes_eq_AdvanceFixed _ n hp,
    AdvanceSeconds_eq_AdvanceFixed _ n hp, fun hsat => AdvanceFixed_one_second _ hp hsat⟩

set_option maxRecDepth 100000 in
/-- C11, amended, at `SetFixedClock(); Tick()`. -/
theorem C11_convenience_mutators_witness :
    (Tick (run [Call.SetFixedClock] init)).fixedClock =
      (run [Call.SetFixedClock] init).fixedClock.plusSeconds 1 :=
  (C11_convenience_mutators [Call.SetFixedClock] 0).2.2.2.2 (by decide)

set_option maxRecDepth 100000 in
/-- C12 as stated fails: -2562048 is a negative Go `int`, but
`time.Duration(-2562048) * time.Hour` wraps around in int64 to a positive
duration, so `AdvanceHours(-2562048)` and `AdvanceFixed(-2562048, 0, 0)`
called right after `SetFixedClock()` leave the stored instant strictly later
than before, not earlier; and the positive 153722868 given to
`AdvanceMinutes` leaves it strictly earlier. -/
theorem C12_sign_overflow_counterexample :
    InInt64 (-2562048) ∧
    Duration.mul (toDuration (-2562048)) Hour = 9223371273709551616 ∧
    (AdvanceHours (-2562048) (SetFixedClock init)).fixedClock.Before
      (SetFixedClock init).fixedClock = false ∧
    (AdvanceHours (-2562048) (SetFixedClock init)).fixedClock.After
      (SetFixedClock init).fixedClock = true ∧
    (AdvanceFixed (-2562048) 0 0 (SetFixedClock init)).fixedClock.After
      (SetFixedClock init).fixedClock = true ∧
    (AdvanceMinutes 153722868 (SetFixedClock init)).fixedClock.Before
      (SetFixedClock init).fixedClock = true := by
  decide

/-- C12, amended: in every reachable package state, for `n` whose product
with the unit fits in int64 (`|n| ≤ 2562047` hours, `|n| ≤ 153722867` minutes,
`|n| ≤ 9223372036` seconds) and as long as the second count of the stored
instant stays in int64 after the addition, a negative `n` given to
`AdvanceHours`, `AdvanceMinutes`, `AdvanceSeconds`, or to `AdvanceFixed` as
its only non-zero component, leaves the stored instant strictly earlier and
a positive `n` leaves it strictly later; `0` leaves the state unchanged. -/
theorem C12_sign_of_delta (cs : List Call) (n : Int) :
    ((-2562047 ≤ n ∧ n ≤ 2562047) → InInt64 ((run cs init).fixedClock.ext + 3600 * n) →
      (n < 0 →
        (AdvanceHours n (run cs init)).fixedClock.Before (run cs init).fixedClock = true ∧
        (AdvanceFixed n 0 0 (run cs init)).fixedClock.Before (run cs init).fixedClock = true) ∧
      (0 < n →
        (AdvanceHours n (run cs init)).fixedClock.After (run cs init).fixedClock = true ∧
        (AdvanceFixed n 0 0 (run cs init)).fixedClock.After (run cs init).fixedClock = true)) ∧
    ((-153722867 ≤ n ∧ n ≤ 153722867) → InInt64 ((run cs init).fixedClock.ext + 60 * n) →
      (n < 0 →
        (AdvanceMinutes n (run cs init)).fixedClock.Before (run cs init).fixedClock = true ∧
        (AdvanceFixed 0 n 0 (run cs init)).fixedClock.Before (run cs init).fixedClock = true) ∧
      (0 < n →
        (AdvanceMinutes n (run cs init)).fixedClock.After (run cs init).fixedClock = true ∧
        (AdvanceFixed 0 n 0 (run cs init)).fixedClock.After (run cs init).fixedClock = true)) ∧
    ((-9223372036 ≤ n ∧ n ≤ 9223372036) → InInt64 ((run cs init).fixedClock.ext + n) →
      (n < 0 →
        (AdvanceSeconds n (run cs init)).fixedClock.Before (run cs init).fixedClock = true ∧
        (AdvanceFixed 0 0 n (run cs init)).fixedClock.Before (run cs init).fixedClock = true) ∧
      (0 < n →
        (AdvanceSeconds n (run cs init)).fixedClock.After (run cs init).fixedClock = true ∧
        (AdvanceFixed 0 0 n (run cs init)).fixedClock.After (run cs init).fixedClock = true)) ∧
    (AdvanceHours 0 (run cs init) = run cs init ∧ AdvanceMinutes 0 (run cs init) = run cs init ∧
      AdvanceSeconds 0 (run cs init) = run cs init ∧
      AdvanceFixed 0 0 0 (run cs init) = run cs init) := by
  have hp := (run_plain cs init init_plain).1
  refine ⟨?_, ?_, ?_, advance_zero _ hp⟩
  · intro hb hsum
    have e := AdvanceHours_exact (run cs init) n hp.1 hb hsum
    have o := moved_order (run cs init).fixedClock _ (3600 * n) hp.1 e
    rw [← AdvanceHours_eq_AdvanceFixed _ n hp]
    exact ⟨fun hn => ⟨o.1 (by omega), o.1 (by omega)⟩, fun hn => ⟨o.2 (by omega), o.2 (by omega)⟩⟩
  · intro hb hsum
    have e := AdvanceMinutes_exact (run cs init) n hp.1 hb hsum
    have o := moved_order (run cs init).fixedClock _ (60 * n) hp.1 e
    rw [← AdvanceMinutes_eq_AdvanceFixed _ n hp]
    exact ⟨fun hn => ⟨o.1 (by omega), o.1 (by omega)⟩, fun hn => ⟨o.2 (by omega), o.2 (by omega)⟩⟩
  · intro hb hsum
    have e := AdvanceSeconds_exact (run cs init) n hp.1 hb hsum
    have o := moved_order (run cs init).fixedClock _ n hp.1 e
    rw [← AdvanceSeconds_eq_AdvanceFixed _ n hp]
    exact ⟨fun hn => ⟨o.1 hn, o.1 hn⟩, fun hn => ⟨o.2 hn, o.2 hn⟩⟩

set_option maxRecDepth 100000 in
/-- C12, amended, at `SetFixedClock(); AdvanceHours(-2)`. -/
theorem C12_sign_of_delta_witness :
    (AdvanceHours (-2) (run [Call.SetFixedClock] init)).fixedClock.Before
      (run [Call.SetFixedClock] init).fixedClock = true :=
  (((C12_sign_of_delta [Call.SetFixedClock] (-2)).1 (by decide) (by decide)).1 (by decide)).1

set_option maxRecDepth 100000 in
/-- C13 as stated fails: with the custom source `fixedClock.Add(time.Hour)`
installed by `SetNow` (a source that is not the fixed-time source, for
example built on a copy of `*AppClock` taken in fixed mode), `Tick()`
changes what `Now()` returns. -/
theorem C13_custom_source_counterexample :
    (fun e : Env => e.fixedClock.Add Hour) { sys := FixedBaseline, fixedClock := FixedBaseline } ≠
      (fun e : Env => e.fixedClock) { sys := FixedBaseline, fixedClock := FixedBaseline } ∧
    Now (Tick (Call.exec (Call.SetNow (fun e => e.fixedClock.Add Hour)) (SetFixedClock init)))
      FixedBaseline ≠
    Now (Call.exec (Call.SetNow (fun e => e.fixedClock.Add Hour)) (SetFixedClock init))
      FixedBaseline := by
  decide

/-- C13, amended: when the source installed in `AppClock` does not read the
stored fixed instant (real-time mode after `ResetClock`, or a custom source
that does not consult it), an advance call still adds its durations to the
stored fixed instant but does not change what `Now()` returns; and, as long
as every source installed later with `SetNow` does not read the stored
instant either, the advance changes no later `Now()` result, whatever calls
follow. -/
theorem C13_advance_outside_fixed_mode (s : State) (a : Advance) (cs : List Call) (sys : Time)
    (hs : IgnoresFixed s.AppClock.nowFunc) (hcs : ∀ c ∈ cs, c.Clean) :
    (a.exec s).fixedClock = s.fixedClock.addAll a.deltas ∧
    Now (a.exec s) sys = Now s sys ∧
    Now (run cs (a.exec s)) sys = Now (run cs s) sys ∧
    IgnoresFixed (ResetClock s).AppClock.nowFunc ∧
    (SetFixedClock (a.exec s)).fixedClock = FixedBaseline := by
  have h : SameReads (a.exec s) s :=
    ⟨(exec_onTime a s).2, Or.inr hs⟩
  exact ⟨exec_deltas a s, SameReads_Now h sys, SameReads_Now (SameReads_run cs hcs h) sys,
    IgnoresFixed_timeNow, rfl⟩

/-- C13, amended, at `SetFixedClock(); ResetClock(); Tick()` followed by
`SetFixedClock(); Tick()`. -/
theorem C13_advance_outside_fixed_mode_witness :
    Now (run [Call.SetFixedClock, Call.advance Advance.tick]
      (Advance.tick.exec (ResetClock (SetFixedClock init)))) FixedBaseline =
    Now (run [Call.SetFixedClock, Call.advance Advance.tick]
      (ResetClock (SetFixedClock init))) FixedBaseline :=
  (C13_advance_outside_fixed_mode (ResetClock (SetFixedClock init)) Advance.tick
    [Call.SetFixedClock, Call.advance Advance.tick] FixedBaseline IgnoresFixed_timeNow
    (by
      intro c hc
      simp only [List.mem_cons, List.mem_singleton, List.not_mem_nil, or_false] at hc
      rcases hc with rfl | rfl <;> exact True.intro)).2.2.1

/-- C14 as stated fails: the zero value `Clock{}` holds the nil function
value, and `SetNow` accepts nil without validation; on such a clock, and on
`AppClock` after `AppClock.SetNow(nil)`, no source function is installed and
`Now()` panics instead of returning an instant. -/
theorem C14_nil_source_counterexample :
    (RawClock.mk none).Now { sys := FixedBaseline, fixedClock := FixedBaseline } = none ∧
    (init.AppClock.raw.SetNow none).nowFunc = none ∧
    (init.AppClock.raw.SetNow none).Now { sys := FixedBaseline, fixedClock := FixedBaseline } =
      none ∧
    RawState.Now (runRaw [RawCall.SetNow none] init.raw) FixedBaseline = none ∧
    RawState.Now (runRaw [RawCall.SetFixedClock, RawCall.SetNow none] init.raw) FixedBaseline =
      none :=
  ⟨rfl, rfl, rfl, rfl, rfl⟩

/-- C14, amended: for a clock whose field holds a function (as `AppClock`
does at start-up) and every sequence of `SetNow(f)` with `f` not nil,
`ResetNow`, `SetFixedClock`, `ResetClock` and advance calls, a source
function is installed in the state reached and `Now()` returns the instant
that function produces; on such sequences the result is the `Now()` of the
model without nil. -/
theorem C14_source_always_installed (s : RawState) (cs : List RawCall) (cs1 : List Call)
    (sys : Time) (h0 : s.AppClock.nowFunc.isSome = true) (hcs : ∀ c ∈ cs, c.NonNil) :
    (∃ f, (runRaw cs s).AppClock.nowFunc = some f ∧
      RawState.Now (runRaw cs s) sys =
        some (f { sys := sys, fixedClock := (runRaw cs s).fixedClock })) ∧
    RawState.Now (runRaw (cs1.map Call.raw) init.raw) sys = some (Now (run cs1 init) sys) := by
  constructor
  · have h := runRaw_installed cs hcs s h0
    obtain ⟨f, hf⟩ := Option.isSome_iff_exists.mp h
    refine ⟨f, hf, ?_⟩
    unfold RawState.Now RawClock.Now
    rw [hf]
  · rw [runRaw_raw]
    rfl

/-- C14, amended, at `AppClock.SetNow(time.Now); SetFixedClock()` from start-up. -/
theorem C14_source_always_installed_witness :
    ∃ f, (runRaw [RawCall.SetNow (some timeNow), RawCall.SetFixedClock] init.raw).AppClock.nowFunc =
        some f ∧
      RawState.Now (runRaw [RawCall.SetNow (some timeNow), RawCall.SetFixedClock] init.raw)
        FixedBaseline =
        some (f { sys := FixedBaseline,
                  fixedClock := (runRaw [RawCall.SetNow (some timeNow), RawCall.SetFixedClock]
                    init.raw).fixedClock }) :=
  (C14_source_always_installed init.raw [RawCall.SetNow (some timeNow), RawCall.SetFixedClock] []
    FixedBaseline rfl
    (by
      intro c hc
      simp only [List.mem_cons, List.mem_singleton, List.not_mem_nil, or_false] at hc
      rcases hc with rfl | rfl
      · exact (rfl : (some timeNow).isSome = true)
      · exact True.intro)).1

/-- C15: on every `Clock` value, with or without a function in its field,
`ResetNow()` called twice leaves the same value as `ResetNow()` called once,
and after `ResetNow()` the installed source is the system-time function
whatever was installed before; the same holds for `AppClock.ResetNow()` and
`ResetClock()` on the package state. -/
theorem C15_ResetNow_idempotent (c c1 : Clock) (r r1 : RawClock) (s : State) :
    c.ResetNow.ResetNow = c.ResetNow ∧
    c.ResetNow.nowFunc = timeNow ∧
    c.ResetNow = c1.ResetNow ∧
    r.ResetNow.ResetNow = r.ResetNow ∧
    r.ResetNow.nowFunc = some timeNow ∧
    r.ResetNow = r1.ResetNow ∧
    Call.exec Call.ResetNow (Call.exec Call.ResetNow s) = Call.exec Call.ResetNow s ∧
    ResetClock (ResetClock s) = ResetClock s :=
  ⟨rfl, rfl, rfl, rfl, rfl, rfl, rfl, rfl⟩

set_option maxRecDepth 100000 in
/-- C16 as stated fails: from fixed mode, `AppClock.SetNow(time.Now)` installs
the system-time function, so the clock is back in real-time mode through a
call that is neither `ResetClock` nor `ResetNow`; and with the custom source
`func() time.Time { clock.ResetClock(); return time.Now() }` installed, a
call of `Now()` itself replaces the installed source. -/
theorem C16_source_changed_counterexample :
    (MemCall.exec MemCall.SetFixedClock Mem.init).AppClock = Func.fixed ∧
    (MemCall.exec (MemCall.SetNow Func.timeNow)
      (MemCall.exec MemCall.SetFixedClock Mem.init)).AppClock = Func.timeNow ∧
    returned (Mem.Now resettingProgram (unixTime 1 0) 1
      (MemCall.exec (MemCall.SetNow Func.timeNow)
        (MemCall.exec MemCall.SetFixedClock Mem.init))) = some (unixTime 1 0) ∧
    Mem.Now resettingProgram (unixTime 1 0) 1
      (MemCall.exec (MemCall.SetNow (Func.client 0)) Mem.init) =
      some (unixTime 1 0, Mem.init) ∧
    (MemCall.exec (MemCall.SetNow (Func.client 0)) Mem.init).AppClock ≠ Mem.init.AppClock := by
  decide

/-- C16, amended: `AppClock` starts in real-time mode; the five advance
operations leave its installed source unchanged and `Clock.Max` leaves every
variable unchanged; `Now()` leaves the installed source and the stored
instant unchanged when the installed source is `time.Now`, the fixed-time
source, or a client function without side effects, so in fixed mode every
read returns the stored instant whatever the system clock shows;
`SetFixedClock` installs the fixed-time source, `ResetClock` and `ResetNow`
install the system-time function, and `ResetClock` leaves the stored instant
as it was.  Among the calls that do not run a source, the installed source
changes only in `SetFixedClock`, `ResetClock`, `ResetNow` and
`AppClock.SetNow`. -/
theorem C16_mode_changes (P : Program) (m : Mem) (a : Advance) (k : MemCall)
    (t1 t2 sys1 sys2 : Time) (fuel n : Nat) :
    Mem.init.AppClock = Func.timeNow ∧
    (MemCall.exec (MemCall.advance a) m).AppClock = m.AppClock ∧
    (Mem.Max m t1 t2).2 = m ∧
    (Mem.Max m t1 t2).1 = init.AppClock.Max t1 t2 ∧
    (m.AppClock = Func.timeNow → Mem.Now P sys1 (fuel + 1) m = some (sys1, m)) ∧
    (m.AppClock = Func.fixed →
      Mem.Now P sys1 (fuel + 1) m = some (m.fixedClock, m) ∧
      Mem.Now P sys2 (fuel + 1) m = some (m.fixedClock, m)) ∧
    (m.AppClock = Func.client n → (P n).Pure →
      ∀ (t : Time) (m1 : Mem), Mem.Now P sys1 fuel m = some (t, m1) → m1 = m) ∧
    (MemCall.exec MemCall.SetFixedClock m).AppClock = Func.fixed ∧
    (MemCall.exec MemCall.ResetClock m).AppClock = Func.timeNow ∧
    (MemCall.exec MemCall.ResetNow m).AppClock = Func.timeNow ∧
    (MemCall.exec MemCall.ResetClock m).fixedClock = m.fixedClock ∧
    ((k.exec m).AppClock ≠ m.AppClock →
      k = MemCall.SetFixedClock ∨ k = MemCall.ResetClock ∨ k = MemCall.ResetNow ∨
        k = MemCall.SetNow (k.exec m).AppClock) := by
  refine ⟨rfl, rfl, rfl, rfl, ?_, ?_, ?_, rfl, rfl, rfl, rfl, ?_⟩
  · intro h
    unfold Mem.Now
    rw [h]
    rfl
  · intro h
    unfold Mem.Now
    rw [h]
    exact ⟨rfl, rfl⟩
  · intro h hp t m1 hr
    unfold Mem.Now at hr
    rw [h] at hr
    cases fuel with
    | zero => exact absurd hr (fun h0 => Option.noConfusion h0)
    | succ f => exact hp _ m sys1 t m1 hr
  · intro h
    cases k with
    | SetFixedClock => exact Or.inl rfl
    | ResetClock => exact Or.inr (Or.inl rfl)
    | ResetNow => exact Or.inr (Or.inr (Or.inl rfl))
    | SetNow f => exact Or.inr (Or.inr (Or.inr rfl))
    | advance a1 => exact absurd rfl h
    | cSetNow g => exact absurd rfl h
    | cResetNow => exact absurd rfl h

/-- C16, amended, at the variables after `SetFixedClock()`. -/
theorem C16_mode_changes_witness :
    Mem.Now resettingProgram FixedBaseline (0 + 1) (MemCall.exec MemCall.SetFixedClock Mem.init) =
      some ((MemCall.exec MemCall.SetFixedClock Mem.init).fixedClock,
        MemCall.exec MemCall.SetFixedClock Mem.init) ∧
    Mem.Now resettingProgram (unixTime 1 0) (0 + 1)
      (MemCall.exec MemCall.SetFixedClock Mem.init) =
      some ((MemCall.exec MemCall.SetFixedClock Mem.init).fixedClock,
        MemCall.exec MemCall.SetFixedClock Mem.init) :=
  (C16_mode_changes resettingProgram (MemCall.exec MemCall.SetFixedClock Mem.init) Advance.tick
    MemCall.ResetClock FixedBaseline FixedBaseline FixedBaseline (unixTime 1 0) 0 0).2.2.2.2.2.1 rfl

set_option maxRecDepth 100000 in
/-- C17 as stated fails: 1125899906842624 (`1<<50`) is a Go `int` on 64-bit
targets, and both `time.Duration(1<<50) * time.Hour` and
`time.Duration(-(1<<50)) * time.Hour` wrap around in int64 to the same
duration `-1<<63`, so `AdvanceFixed(1<<50, 0, 0)` followed by
`AdvanceFixed(-(1<<50), 0, 0)`, and likewise `AdvanceHours`, moves the stored
instant back twice instead of restoring it.  And once 1000000301 calls of
`AdvanceHours(2562047)` have driven the stored second count to `1<<63 - 1`,
where `Add` saturates, `AdvanceSeconds(1)` followed by `AdvanceSeconds(-1)`
leaves it one second earlier. -/
theorem C17_not_invertible_counterexample :
    InInt64 1125899906842624 ∧
    Duration.mul (toDuration 1125899906842624) Hour = -9223372036854775808 ∧
    Duration.mul (toDuration (-1125899906842624)) Hour = -9223372036854775808 ∧
    (AdvanceFixed (-1125899906842624) 0 0 (AdvanceFixed 1125899906842624 0 0
      (SetFixedClock init))).fixedClock ≠ (SetFixedClock init).fixedClock ∧
    (AdvanceHours (-1125899906842624) (AdvanceHours 1125899906842624
      (SetFixedClock init))).fixedClock ≠ (SetFixedClock init).fixedClock ∧
    (AdvanceSeconds (-1) (AdvanceSeconds 1
      (runAdvances (List.replicate 1000000301 (Advance.hours 2562047))
        (SetFixedClock init)))).fixedClock ≠
      (runAdvances (List.replicate 1000000301 (Advance.hours 2562047))
        (SetFixedClock init)).fixedClock := by
  rw [replicate_hours_max]
  decide

/-- C17, amended: in every reachable package state, for `h`, `m`, `s` whose
products with `time.Hour`, `time.Minute`, `time.Second` fit in int64 and as
long as the second count of the stored instant stays in int64 after each
addition on the way forth and back, `AdvanceFixed(h, m, s)` followed by
`AdvanceFixed(-h, -m, -s)` restores the package state exactly; likewise
`AdvanceHours(h)` followed by `AdvanceHours(-h)`, and the same for minutes and
seconds. -/
theorem C17_advance_then_undo (cs : List Call) (h m s : Int) :
    ((-2562047 ≤ h ∧ h ≤ 2562047) → (-153722867 ≤ m ∧ m ≤ 153722867) →
      (-9223372036 ≤ s ∧ s ≤ 9223372036) →
      InInt64 ((run cs init).fixedClock.ext + 3600 * h) →
      InInt64 ((run cs init).fixedClock.ext + 3600 * h + 60 * m) →
      InInt64 ((run cs init).fixedClock.ext + 3600 * h + 60 * m + s) →
      InInt64 ((run cs init).fixedClock.ext + 60 * m + s) →
      InInt64 ((run cs init).fixedClock.ext + s) →
      AdvanceFixed (-h) (-m) (-s) (AdvanceFixed h m s (run cs init)) = run cs init) ∧
    ((-2562047 ≤ h ∧ h ≤ 2562047) → InInt64 ((run cs init).fixedClock.ext + 3600 * h) →
      AdvanceHours (-h) (AdvanceHours h (run cs init)) = run cs init) ∧
    ((-153722867 ≤ m ∧ m ≤ 153722867) → InInt64 ((run cs init).fixedClock.ext + 60 * m) →
      AdvanceMinutes (-m) (AdvanceMinutes m (run cs init)) = run cs init) ∧
    ((-9223372036 ≤ s ∧ s ≤ 9223372036) → InInt64 ((run cs init).fixedClock.ext + s) →
      AdvanceSeconds (-s) (AdvanceSeconds s (run cs init)) = run cs init) := by
  have hp := (run_plain cs init init_plain).1
  obtain ⟨hw, he⟩ := hp
  unfold InInt64 minInt64 maxInt64 at he
  generalize run cs init = st at hw he ⊢
  refine ⟨?_, ?_, ?_, ?_⟩
  · intro hh hm hs h1 h2 h3 h4 h5
    have e1 := AdvanceFixed_exact st h m s hw hh hm hs h1 h2 h3
    have hw1 : (AdvanceFixed h m s st).fixedClock.wall < 1000000000 := by rw [e1]; exact hw
    have hx : (AdvanceFixed h m s st).fixedClock.ext = st.fixedClock.ext + 3600 * h + 60 * m + s := by
      rw [e1]; rfl
    unfold InInt64 minInt64 maxInt64 at h1 h2 h3 h4 h5
    have e2 := AdvanceFixed_exact (AdvanceFixed h m s st) (-h) (-m) (-s) hw1 (by omega) (by omega)
      (by omega)
      (by rw [hx]; unfold InInt64 minInt64 maxInt64; omega)
      (by rw [hx]; unfold InInt64 minInt64 maxInt64; omega)
      (by rw [hx]; unfold InInt64 minInt64 maxInt64; omega)
    refine State_eq_of _ _ rfl ?_
    rw [e2, e1]
    cases hst : st.fixedClock
    simp only [Time.plusSeconds, Time.mk.injEq, and_true, true_and]
    omega
  · intro hh h1
    have e1 := AdvanceHours_exact st h hw hh h1
    have hw1 : (AdvanceHours h st).fixedClock.wall < 1000000000 := by rw [e1]; exact hw
    have e2 := AdvanceHours_exact (AdvanceHours h st) (-h) hw1 (by omega)
      (by rw [e1]; unfold InInt64 minInt64 maxInt64; simp only [Time.plusSeconds]; omega)
    refine State_eq_of _ _ rfl ?_
    rw [e2, e1]
    exact plusSeconds_cancel _ _ _ (by omega)
  · intro hm h1
    have e1 := AdvanceMinutes_exact st m hw hm h1
    have hw1 : (AdvanceMinutes m st).fixedClock.wall < 1000000000 := by rw [e1]; exact hw
    have e2 := AdvanceMinutes_exact (AdvanceMinutes m st) (-m) hw1 (by omega)
      (by rw [e1]; unfold InInt64 minInt64 maxInt64; simp only [Time.plusSeconds]; omega)
    refine State_eq_of _ _ rfl ?_
    rw [e2, e1]
    exact plusSeconds_cancel _ _ _ (by omega)
  · intro hs h1
    have e1 := AdvanceSeconds_exact st s hw hs h1
    have hw1 : (AdvanceSeconds s st).fixedClock.wall < 1000000000 := by rw [e1]; exact hw
    have e2 := AdvanceSeconds_exact (AdvanceSeconds s st) (-s) hw1 (by omega)
      (by rw [e1]; unfold InInt64 minInt64 maxInt64; simp only [Time.plusSeconds]; omega)
    refine State_eq_of _ _ rfl ?_
    rw [e2, e1]
    exact plusSeconds_cancel _ _ _ (by omega)

set_option maxRecDepth 100000 in
/-- C17, amended, at `SetFixedClock(); AdvanceFixed(1, -30, 15); AdvanceFixed(-1, 30, -15)`. -/
theorem C17_advance_then_undo_witness :
    AdvanceFixed (-1) (-(-30)) (-15) (AdvanceFixed 1 (-30) 15 (run [Call.SetFixedClock] init)) =
      run [Call.SetFixedClock] init :=
  (C17_advance_then_undo [Call.SetFixedClock] 1 (-30) 15).1 (by decide) (by decide) (by decide)
    (by decide) (by decide) (by decide) (by decide) (by decide)

set_option maxRecDepth 100000 in
/-- C18 as stated fails.  A client that copies `*AppClock` while the fixed
clock is installed holds a `Clock` `c` distinct from `AppClock` whose source
reads the stored fixed instant, so `Tick()` changes what `c.Now()` returns.
After `c.SetNow(clock.Now)` the source of `c` calls through `AppClock`, so
`ResetClock()` changes what `c.Now()` returns.  And after
`AppClock.SetNow(c.Now)` the package-level `Now()` calls through `c`, so
`c.SetNow(f)` changes what `Now()` returns. -/
theorem C18_not_isolated_counterexample :
    returned (Mem.cNow resettingProgram (unixTime 5 0) 2
      (MemCall.exec (MemCall.advance Advance.tick)
        { AppClock := Func.fixed, fixedClock := FixedBaseline, c := Func.fixed })) ≠
    returned (Mem.cNow resettingProgram (unixTime 5 0) 2
      { AppClock := Func.fixed, fixedClock := FixedBaseline, c := Func.fixed }) ∧
    returned (Mem.cNow resettingProgram (unixTime 5 0) 2
      (MemCall.exec MemCall.ResetClock
        { AppClock := Func.fixed, fixedClock := FixedBaseline, c := Func.pkgNow })) ≠
    returned (Mem.cNow resettingProgram (unixTime 5 0) 2
      { AppClock := Func.fixed, fixedClock := FixedBaseline, c := Func.pkgNow }) ∧
    returned (Mem.Now resettingProgram (unixTime 5 0) 2
      (MemCall.exec (MemCall.cSetNow Func.fixed)
        { AppClock := Func.cNow, fixedClock := FixedBaseline, c := Func.timeNow })) ≠
    returned (Mem.Now resettingProgram (unixTime 5 0) 2
      { AppClock := Func.cNow, fixedClock := FixedBaseline, c := Func.timeNow }) := by
  decide

/-- C18, amended: for a `Clock` `c` distinct from `AppClock`, `c.SetNow(f)` and
`c.ResetNow()` leave the source installed in `AppClock` and the stored fixed
instant unchanged, and leave what the package-level `Now()` returns unchanged
when the source of `AppClock` does not call through `c` (as `time.Now` and the
fixed-time source do not); `SetFixedClock()`, `ResetClock()`, the advance
operations and `AppClock.SetNow`/`ResetNow` leave the source installed in `c`
unchanged, and leave what `c.Now()` returns unchanged when that source reads
neither the stored fixed instant nor `AppClock` (as `time.Now` does not). -/
theorem C18_clock_isolation (P : Program) (m : Mem) (g : Func) (k : MemCall) (sys : Time)
    (fuel : Nat) :
    (MemCall.exec (MemCall.cSetNow g) m).AppClock = m.AppClock ∧
    (MemCall.exec (MemCall.cSetNow g) m).fixedClock = m.fixedClock ∧
    (MemCall.exec MemCall.cResetNow m).AppClock = m.AppClock ∧
    (MemCall.exec MemCall.cResetNow m).fixedClock = m.fixedClock ∧
    (IgnoresC P m.AppClock →
      returned (Mem.Now P sys fuel (MemCall.exec (MemCall.cSetNow g) m)) =
        returned (Mem.Now P sys fuel m) ∧
      returned (Mem.Now P sys fuel (MemCall.exec MemCall.cResetNow m)) =
        returned (Mem.Now P sys fuel m)) ∧
    (m.AppClock = Func.timeNow ∨ m.AppClock = Func.fixed →
      returned (Mem.Now P sys fuel (MemCall.exec (MemCall.cSetNow g) m)) =
        returned (Mem.Now P sys fuel m) ∧
      returned (Mem.Now P sys fuel (MemCall.exec MemCall.cResetNow m)) =
        returned (Mem.Now P sys fuel m)) ∧
    (k.OnPackage → (k.exec m).c = m.c) ∧
    (k.OnPackage → IgnoresPackage P m.c →
      returned (Mem.cNow P sys fuel (k.exec m)) = returned (Mem.cNow P sys fuel m)) ∧
    (k.OnPackage → m.c = Func.timeNow →
      returned (Mem.cNow P sys fuel (k.exec m)) = returned (Mem.cNow P sys fuel m)) ∧
    (k.OnPackage → m.c = Func.timeNow →
      returned (Mem.cNow P sys (fuel + 1) (k.exec m)) = some sys) ∧
    (m.AppClock = Func.timeNow →
      returned (Mem.Now P sys (fuel + 1) (MemCall.exec (MemCall.cSetNow g) m)) = some sys) ∧
    (m.AppClock = Func.fixed →
      returned (Mem.Now P sys (fuel + 1) (MemCall.exec (MemCall.cSetNow g) m)) =
        some m.fixedClock) := by
  have first : IgnoresC P m.AppClock →
      returned (Mem.Now P sys fuel (MemCall.exec (MemCall.cSetNow g) m)) =
        returned (Mem.Now P sys fuel m) ∧
      returned (Mem.Now P sys fuel (MemCall.exec MemCall.cResetNow m)) =
        returned (Mem.Now P sys fuel m) :=
    fun h => ⟨h sys fuel m g, h sys fuel m Func.timeNow⟩
  have second : k.OnPackage → IgnoresPackage P m.c →
      returned (Mem.cNow P sys fuel (k.exec m)) = returned (Mem.cNow P sys fuel m) := by
    intro hk h
    obtain ⟨hc, he⟩ := exec_OnPackage k hk m
    unfold Mem.cNow
    rw [hc, he]
    exact h sys fuel m _ _
  refine ⟨rfl, rfl, rfl, rfl, first, ?_, fun hk => (exec_OnPackage k hk m).1, second, ?_, ?_,
    ?_, ?_⟩
  · rintro (h | h)
    · exact first (by rw [h]; exact IgnoresC_timeNow P)
    · exact first (by rw [h]; exact IgnoresC_fixed P)
  · intro hk h
    exact second hk (by rw [h]; exact IgnoresPackage_timeNow P)
  · intro hk h
    unfold Mem.cNow
    rw [(exec_OnPackage k hk m).1, h]
    rfl
  · intro h
    unfold Mem.Now
    rw [show (MemCall.exec (MemCall.cSetNow g) m).AppClock = m.AppClock from rfl, h]
    rfl
  · intro h
    unfold Mem.Now
    rw [show (MemCall.exec (MemCall.cSetNow g) m).AppClock = m.AppClock from rfl, h]
    rfl

set_option maxRecDepth 100000 in
/-- C18, amended, at a client clock reading the system time, across `SetFixedClock()`. -/
theorem C18_clock_isolation_witness :
    returned (Mem.cNow resettingProgram (unixTime 5 0) 1
      (MemCall.exec MemCall.SetFixedClock
        { AppClock := Func.timeNow, fixedClock := FixedBaseline, c := Func.timeNow })) =
    returned (Mem.cNow resettingProgram (unixTime 5 0) 1
      { AppClock := Func.timeNow, fixedClock := FixedBaseline, c := Func.timeNow }) :=
  (C18_clock_isolation resettingProgram
    { AppClock := Func.timeNow, fixedClock := FixedBaseline, c := Func.timeNow } Func.nil
    MemCall.SetFixedClock (unixTime 5 0) 1).2.2.2.2.2.2.2.2.1 True.intro rfl

end GoClock
